import Mathlib

/-!
# Order-book analytics engine (`cpp_engine/src/analytics_engine.cpp`)

A shallow embedding of `AnalyticsEngine` and of its two member functions,
`processSnapshot` and `detectAnomalies`.

Modelling conventions.

* A C++ `double` is read in two ways. The first part of the file reads it as
  an exact rational number (`ℚ`): the arithmetic and the comparisons of the
  source are the field operations and the order of `ℚ`. This reading serves
  the statements about what the program decides, copies and leaves alone:
  which guard returns, which fields are written and from what, in which order
  records are appended. The namespace `Binary64` reads it as IEEE 754
  binary64, with rounding to nearest, infinities and NaN, and embeds
  `processSnapshot` once more over it. That reading serves the statements
  about computed values, which hold there only up to rounding, and the inputs
  that are not finite.
* A member function that may write the engine's fields takes the engine and
  returns the new engine next to its result.
* The protobuf messages `Snapshot`, `PriceLevel`, `ProcessedSnapshot` and
  `Anomaly` are records holding the fields the source reads and writes; a
  repeated field is a `List`.
-/

/-! ## Data model -/

set_option linter.dupNamespace false

/-- One price level of a book side: `price()` and `volume()`. -/
structure PriceLevel where
  price : ℚ
  volume : ℚ
  deriving DecidableEq, Repr

/-- The snapshot message: `timestamp()`, `mid_price()`, `bids(i)`, `asks(i)`.
The timestamp is only copied by the source; it is an integer here. -/
structure Snapshot where
  timestamp : Int
  mid_price : ℚ
  bids : List PriceLevel
  asks : List PriceLevel
  deriving DecidableEq, Repr

/-- One anomaly record: `set_type`, `set_severity`, `set_message`. -/
structure Anomaly where
  type : String
  severity : String
  message : String
  deriving DecidableEq, Repr

/-- The result message, one field per setter used by the source. -/
structure ProcessedSnapshot where
  timestamp : Int
  mid_price : ℚ
  spread : ℚ
  ofi : ℚ
  obi : ℚ
  microprice : ℚ
  divergence : ℚ
  directional_prob : ℚ
  regime : Int
  regime_label : String
  vpin : ℚ
  anomalies : List Anomaly
  deriving DecidableEq, Repr

/-- The member variables of the class `AnalyticsEngine`. -/
structure AnalyticsEngine where
  prev_best_bid : ℚ
  prev_best_ask : ℚ
  prev_bid_q : ℚ
  prev_ask_q : ℚ
  avg_spread : ℚ
  avg_spread_sq : ℚ
  avg_l1_vol : ℚ
  alpha : ℚ
  deriving DecidableEq, Repr

/-- The constructor `AnalyticsEngine::AnalyticsEngine()` (lines 6-15). -/
def AnalyticsEngine.AnalyticsEngine : AnalyticsEngine where
  prev_best_bid := 0
  prev_best_ask := 0
  prev_bid_q := 0
  prev_ask_q := 0
  avg_spread := 0.05
  avg_spread_sq := 0.0025
  avg_l1_vol := 10.0
  alpha := 0.05

/-- `snapshot.bids_size()`. -/
def Snapshot.bids_size (snapshot : Snapshot) : Nat := snapshot.bids.length

/-- `snapshot.asks_size()`. -/
def Snapshot.asks_size (snapshot : Snapshot) : Nat := snapshot.asks.length

/-- `snapshot.bids(i)`; the source only indexes below `bids_size()`. -/
def Snapshot.bidsAt (snapshot : Snapshot) (i : Nat) : PriceLevel :=
  snapshot.bids.getD i ⟨0, 0⟩

/-- `snapshot.asks(i)`; the source only indexes below `asks_size()`. -/
def Snapshot.asksAt (snapshot : Snapshot) (i : Nat) : PriceLevel :=
  snapshot.asks.getD i ⟨0, 0⟩

/-! ## `processSnapshot` (lines 17-119) -/

/-- The record built by lines 18-32, before any check. -/
def initialResult (snapshot : Snapshot) : ProcessedSnapshot where
  timestamp := snapshot.timestamp
  mid_price := snapshot.mid_price
  spread := 0
  ofi := 0
  obi := 0
  microprice := snapshot.mid_price
  divergence := 0
  directional_prob := 50
  regime := 0
  regime_label := "Calm"
  vpin := 0
  anomalies := []

/-- `AnalyticsEngine::processSnapshot`: the returned message and the engine
after the call. The local variables carry the names of the source. -/
def processSnapshot (e : AnalyticsEngine) (snapshot : Snapshot) :
    ProcessedSnapshot × AnalyticsEngine :=
  let result := initialResult snapshot
  if snapshot.bids_size = 0 ∨ snapshot.asks_size = 0 then (result, e) else
  -- Extract L1 data with validation
  let best_bid_px := (snapshot.bidsAt 0).price
  let best_ask_px := (snapshot.asksAt 0).price
  let best_bid_q := (snapshot.bidsAt 0).volume
  let best_ask_q := (snapshot.asksAt 0).volume
  if best_bid_px ≤ 0 ∨ best_ask_px ≤ 0 ∨ best_bid_q < 0 ∨ best_ask_q < 0 then (result, e) else
  -- spread and its running statistics (lines 49-60)
  let (result, e) :=
    if best_ask_px ≤ best_bid_px then
      ({ result with spread := 0 }, e)
    else
      let spread := best_ask_px - best_bid_px
      ({ result with spread := spread },
       { e with
          avg_spread := (1 - e.alpha) * e.avg_spread + e.alpha * spread
          avg_spread_sq := (1 - e.alpha) * e.avg_spread_sq + e.alpha * (spread * spread) })
  -- order flow imbalance (lines 62-71)
  let result :=
    if e.prev_best_bid > 0 ∧ e.prev_best_ask > 0 then
      let bid_change := best_bid_q - e.prev_bid_q
      let ask_change := best_ask_q - e.prev_ask_q
      let ofi := (bid_change - ask_change) / 1000.0
      let ofi := max (-1) (min 1 ofi)
      { result with ofi := ofi }
    else result
  -- order book imbalance (lines 73-79)
  let total_vol := best_bid_q + best_ask_q
  let result :=
    if total_vol > 1e-9 then
      { result with obi := (best_bid_q - best_ask_q) / total_vol }
    else result
  -- microprice and divergence (lines 81-90)
  let microprice :=
    if total_vol > 1e-9 then
      (best_bid_q * best_ask_px + best_ask_q * best_bid_px) / total_vol
    else snapshot.mid_price
  let result := { result with microprice := microprice }
  let divergence := microprice - snapshot.mid_price
  let result := { result with divergence := divergence }
  -- directional probability (lines 92-97)
  let directional_prob : ℚ :=
    if |divergence| > 0.01 then (if divergence > 0 then 60 else 40) else 50
  let result := { result with directional_prob := directional_prob }
  -- regime classification (lines 99-106)
  let result :=
    if result.spread > e.avg_spread * 2 then
      { result with regime := 1, regime_label := "Stressed" }
    else
      { result with regime := 0, regime_label := "Calm" }
  -- state for the next call and the L1-volume average (lines 108-116)
  let current_l1_vol := (best_bid_q + best_ask_q) / 2
  let e := { e with
    prev_best_bid := best_bid_px
    prev_best_ask := best_ask_px
    prev_bid_q := best_bid_q
    prev_ask_q := best_ask_q
    avg_l1_vol := (1 - e.alpha) * e.avg_l1_vol + e.alpha * current_l1_vol }
  (result, e)

/-- The top-of-book check of lines 34-47 passes: both sides are non-empty,
both best prices are positive and both best volumes are non-negative. -/
def Snapshot.valid (snapshot : Snapshot) : Prop :=
  snapshot.bids_size ≠ 0 ∧ snapshot.asks_size ≠ 0 ∧
    0 < (snapshot.bidsAt 0).price ∧ 0 < (snapshot.asksAt 0).price ∧
    0 ≤ (snapshot.bidsAt 0).volume ∧ 0 ≤ (snapshot.asksAt 0).volume

instance (snapshot : Snapshot) : Decidable snapshot.valid := by
  unfold Snapshot.valid; infer_instance

/-- The engine after `processSnapshot` has been called on each snapshot of a
sequence in turn, starting from `e`. -/
def feed (e : AnalyticsEngine) (snapshots : List Snapshot) : AnalyticsEngine :=
  snapshots.foldl (fun e snapshot => (processSnapshot e snapshot).2) e

/-! ## `detectAnomalies` (lines 121-163) -/

/-- `std::to_string(int)` on the non-negative loop counter: its decimal digits. -/
def to_string_int (n : Nat) : String := toString n

/-- Rounding of a non-negative rational to the nearest natural number, a tie
going to the even neighbour. -/
def roundHalfEven (q : ℚ) : Nat :=
  let f := q.num.toNat / q.den
  let r := q.num.toNat % q.den
  if 2 * r < q.den then f
  else if q.den < 2 * r then f + 1
  else if f % 2 = 0 then f else f + 1

/-- `std::to_string(double)`, which prints as `"%f"`: a sign, the integer part
and six fractional digits. -/
def to_string_double (x : ℚ) : String :=
  let scaled := roundHalfEven (|x| * 1000000)
  let frac := toString (scaled % 1000000)
  (if x < 0 then "-" else "") ++ toString (scaled / 1000000) ++ "." ++
    String.mk (List.replicate (6 - frac.length) '0') ++ frac

/-- `result.add_anomalies()` followed by the three setters on the new record. -/
def ProcessedSnapshot.add_anomalies (result : ProcessedSnapshot) (anomaly : Anomaly) :
    ProcessedSnapshot :=
  { result with anomalies := result.anomalies ++ [anomaly] }

/-- The loop of lines 125-130: `gap_count` after the last iteration. -/
def gapCount (snapshot : Snapshot) : Nat :=
  (List.range (min 10 (min snapshot.bids_size snapshot.asks_size))).foldl
    (fun gap_count i =>
      if (snapshot.bidsAt i).volume < 50 ∨ (snapshot.asksAt i).volume < 50 then gap_count + 1
      else gap_count)
    0

/-- `AnalyticsEngine::detectAnomalies`: the result message after the call and
the engine after the call (the function is not `const`, so the engine is part
of what it returns). -/
def detectAnomalies (e : AnalyticsEngine) (snapshot : Snapshot) (result : ProcessedSnapshot)
    (spread obi best_bid_q best_ask_q : ℚ) : ProcessedSnapshot × AnalyticsEngine :=
  -- Liquidity gaps detection
  let gap_count := gapCount snapshot
  let result :=
    if gap_count > 3 then
      result.add_anomalies
        { type := "LIQUIDITY_GAP"
          severity := if gap_count > 6 then "critical" else "high"
          message := "Liquidity gaps detected at " ++ to_string_int gap_count ++ " levels" }
    else result
  -- Heavy imbalance detection
  let result :=
    if |obi| > 0.5 then
      result.add_anomalies
        { type := "HEAVY_IMBALANCE"
          severity := "high"
          message := if obi > 0 then "Heavy BUY pressure" else "Heavy SELL pressure" }
    else result
  -- Spread shock detection
  let result :=
    if spread > 0 ∧ spread > e.avg_spread * 3 then
      result.add_anomalies
        { type := "SPREAD_SHOCK"
          severity := "medium"
          message := "Wide spread detected: " ++ to_string_double spread }
    else result
  -- Spoofing-like behavior
  let current_l1_vol := (best_bid_q + best_ask_q) / 2
  let result :=
    if current_l1_vol > e.avg_l1_vol * 4 then
      result.add_anomalies
        { type := "LARGE_ORDER"
          severity := "medium"
          message := "Unusually large L1 volume detected" }
    else result
  (result, e)

/-- The anomaly records a call of `detectAnomalies` appended: what follows the
records the result already held. -/
def appended (e : AnalyticsEngine) (snapshot : Snapshot) (result : ProcessedSnapshot)
    (spread obi best_bid_q best_ask_q : ℚ) : List Anomaly :=
  (detectAnomalies e snapshot result spread obi best_bid_q best_ask_q).1.anomalies.drop
    result.anomalies.length

/-- The gap count as the specification words it: the number of indices
`i < min(10, number of bid levels, number of ask levels)` at which the bid
volume or the ask volume at level `i` is below 50. -/
def specGapCount (snapshot : Snapshot) : Nat :=
  ((List.range (min 10 (min snapshot.bids.length snapshot.asks.length))).filter
    (fun i => (snapshot.bidsAt i).volume < 50 ∨ (snapshot.asksAt i).volume < 50)).length

/-! ## Sample inputs -/

/-- A book of one level per side: bid `(100, 10)`, ask `(101, 10)`. -/
def firstTick : Snapshot := ⟨0, 100.5, [⟨100, 10⟩], [⟨101, 10⟩]⟩

/-- Ten levels per side; the first seven bid levels hold less than 50. -/
def thinBook : Snapshot :=
  ⟨3, 100.5,
    [⟨100, 10⟩, ⟨99, 10⟩, ⟨98, 10⟩, ⟨97, 10⟩, ⟨96, 10⟩, ⟨95, 10⟩, ⟨94, 10⟩, ⟨93, 100⟩,
      ⟨92, 100⟩, ⟨91, 100⟩],
    [⟨101, 100⟩, ⟨102, 100⟩, ⟨103, 100⟩, ⟨104, 100⟩, ⟨105, 100⟩, ⟨106, 100⟩, ⟨107, 100⟩,
      ⟨108, 100⟩, ⟨109, 100⟩, ⟨110, 100⟩]⟩

/-- A crossed book that passes the top-of-book check: bid `(101, 10)` above
ask `(100, 20)`. -/
def crossedTick : Snapshot := ⟨4, 100.5, [⟨101, 10⟩], [⟨100, 20⟩]⟩

/-- A book with an empty ask side. -/
def oneSidedTick : Snapshot := ⟨6, 100, [⟨100, 10⟩], []⟩

/-! ## State invariant -/

/-- The property of the engine's fields that every call of `processSnapshot`
preserves and the constructor establishes. -/
def engineInvariant (e : AnalyticsEngine) : Prop :=
  0 < e.avg_spread ∧ 0 < e.avg_spread_sq ∧ 0 < e.avg_l1_vol ∧ e.alpha = 0.05 ∧
    0 ≤ e.prev_bid_q ∧ 0 ≤ e.prev_ask_q ∧
    ((e.prev_best_bid = 0 ∧ e.prev_best_ask = 0) ∨ (0 < e.prev_best_bid ∧ 0 < e.prev_best_ask))

/-! ## The binary64 reading of `double`

The definitions above read `double` as an exact rational, which is faithful for
what the program decides by comparing and copying. What it computes is rounded:
this section reads `double` as IEEE 754 binary64 with round-to-nearest, ties to
even, infinities and NaN, and embeds `processSnapshot` once more over it.

* Every operation of the source is rounded on its own, in source order; no
  multiplication is fused with an addition.
* The two zeros are identified: the program never divides by a zero and never
  looks at the sign of one.
* The comparisons of the source are `Double.lt` and `Double.le`, false on NaN.
  Equality of two `Double` values in a statement is identity of the value (NaN
  included), not the operator `==`, which the source applies to no `double`. -/

namespace Binary64

/-- A binary64 value: NaN, an infinity, or the finite value
`(-1)^neg * m * 2^e`. Every operation below returns a finite value in
canonical form: `m < 2^53` and `-1074 ≤ e ≤ 971`, with `2^52 ≤ m` unless
`e = -1074`, and zero as `fin false 0 0`. -/
inductive Double
  | nan
  | inf (neg : Bool)
  | fin (neg : Bool) (m : Nat) (e : Int)
  deriving DecidableEq, Repr

namespace Double

/-- Number of binary digits of `n`, for `n < 2 ^ fuel`. -/
def bitsAux : Nat → Nat → Nat
  | 0, _ => 0
  | fuel + 1, n => if n = 0 then 0 else bitsAux fuel (n / 2) + 1

/-- Number of binary digits of `n`. -/
def bits (n : Nat) : Nat := bitsAux n n

/-- Zero. -/
def zero : Double := fin false 0 0

/-- The natural number nearest to `m / 2^d`, the even one at a tie (`1 ≤ d`). -/
def roundShift (m d : Nat) : Nat :=
  let q := m / 2 ^ d
  let r := m % 2 ^ d
  let half := 2 ^ (d - 1)
  if half < r ∨ (r = half ∧ q % 2 = 1) then q + 1 else q

/-- The binary64 value nearest to `(-1)^neg * m * 2^e`, ties to even; an
infinity when that is beyond the largest finite value. -/
def round (neg : Bool) (m : Nat) (e : Int) : Double :=
  if m = 0 then zero else
  let et : Int := Max.max (e + (bits m : Int) - 53) (-1074)
  if et ≤ e then
    if et > 971 then inf neg else fin neg (m * 2 ^ (e - et).toNat) et
  else
    let q := roundShift m (et - e).toNat
    if q = 0 then zero
    else if q = 2 ^ 53 then (if et + 1 > 971 then inf neg else fin neg (2 ^ 52) (et + 1))
    else if et > 971 then inf neg else fin neg q et

/-- The binary64 value nearest to `(-1)^neg * (a / b) * 2^e`, for `b ≠ 0`: the
quotient is taken to 64 digits and more, and a last digit records whether the
division left a remainder. -/
def roundDiv (neg : Bool) (a b : Nat) (e : Int) : Double :=
  let k := 64 + bits b
  let q := (a * 2 ^ k) / b
  let r := (a * 2 ^ k) % b
  round neg (2 * q + (if r = 0 then 0 else 1)) (e - (k : Int) - 1)

/-- Conversion of an integer, as for the `int` operands of the source. -/
def ofInt (i : Int) : Double := round (decide (i < 0)) i.natAbs 0

/-- The value of the decimal literal `n * 10^x`. -/
def ofDecimal (n : Nat) (x : Int) : Double :=
  if 0 ≤ x then round false (n * 10 ^ x.toNat) 0 else roundDiv false n (10 ^ (-x).toNat) 0

/-- Unary minus. -/
def neg : Double → Double
  | nan => nan
  | inf s => inf (!s)
  | fin s m e => if m = 0 then zero else fin (!s) m e

/-- The finite value `(-1)^s * m * 2^e` as an integer multiple of `2^x`, for
`x ≤ e`. -/
def scaled (s : Bool) (m : Nat) (e x : Int) : Int :=
  (if s then -1 else 1) * ((m * 2 ^ (e - x).toNat : Nat) : Int)

/-- Addition. -/
def add : Double → Double → Double
  | nan, _ => nan
  | _, nan => nan
  | inf s, inf t => if s = t then inf s else nan
  | inf s, fin _ _ _ => inf s
  | fin _ _ _, inf t => inf t
  | fin s m e, fin t n f =>
    let x := Min.min e f
    let c := scaled s m e x + scaled t n f x
    round (decide (c < 0)) c.natAbs x

/-- Subtraction. -/
def sub (x y : Double) : Double := add x (neg y)

/-- Multiplication. -/
def mul : Double → Double → Double
  | nan, _ => nan
  | _, nan => nan
  | inf s, inf t => inf (xor s t)
  | inf s, fin t n _ => if n = 0 then nan else inf (xor s t)
  | fin s m _, inf t => if m = 0 then nan else inf (xor s t)
  | fin s m e, fin t n f => round (xor s t) (m * n) (e + f)

/-- Division. -/
def div : Double → Double → Double
  | nan, _ => nan
  | _, nan => nan
  | inf _, inf _ => nan
  | inf s, fin t _ _ => inf (xor s t)
  | fin _ _ _, inf _ => zero
  | fin s m e, fin t n f =>
    if n = 0 then (if m = 0 then nan else inf (xor s t))
    else roundDiv (xor s t) m n (e - f)

/-- The comparison `x < y`, false when either side is NaN. -/
def lt : Double → Double → Bool
  | nan, _ => false
  | _, nan => false
  | inf s, inf t => s && !t
  | inf s, fin _ _ _ => s
  | fin _ _ _, inf t => !t
  | fin s m e, fin t n f => decide (scaled s m e (Min.min e f) < scaled t n f (Min.min e f))

/-- The comparison `x <= y`, false when either side is NaN. -/
def le : Double → Double → Bool
  | nan, _ => false
  | _, nan => false
  | inf s, inf t => s || !t
  | inf s, fin _ _ _ => s
  | fin _ _ _, inf t => !t
  | fin s m e, fin t n f => decide (scaled s m e (Min.min e f) ≤ scaled t n f (Min.min e f))

/-- `std::abs`. -/
def abs : Double → Double
  | nan => nan
  | inf _ => inf false
  | fin _ m e => fin false m e

/-- `std::max(a, b)`, which is `(a < b) ? b : a`. -/
def max (a b : Double) : Double := if lt a b then b else a

/-- `std::min(a, b)`, which is `(b < a) ? b : a`. -/
def min (a b : Double) : Double := if lt b a then b else a

/-- The rational number a finite value stands for; 0 for NaN and infinities. -/
def toRat : Double → ℚ
  | fin s m e => (if s then -1 else 1) * (m : ℚ) * (2 : ℚ) ^ e
  | _ => 0

/-- Neither NaN nor an infinity. -/
def isFinite : Double → Prop
  | fin _ _ _ => True
  | _ => False

instance (x : Double) : Decidable x.isFinite := by
  cases x <;> unfold isFinite <;> infer_instance

instance : OfNat Double n := ⟨ofInt n⟩
instance : OfScientific Double := ⟨fun m s x => ofDecimal m (if s then -(x : Int) else x)⟩
instance : Neg Double := ⟨neg⟩
instance : Add Double := ⟨add⟩
instance : Sub Double := ⟨sub⟩
instance : Mul Double := ⟨mul⟩
instance : Div Double := ⟨div⟩
instance : LT Double := ⟨fun a b => lt a b = true⟩
instance : LE Double := ⟨fun a b => le a b = true⟩
instance (a b : Double) : Decidable (a < b) := inferInstanceAs (Decidable (lt a b = true))
instance (a b : Double) : Decidable (a ≤ b) := inferInstanceAs (Decidable (le a b = true))

end Double

/-- One price level of a book side. -/
structure PriceLevel where
  price : Double
  volume : Double
  deriving DecidableEq, Repr

/-- The snapshot message. -/
structure Snapshot where
  timestamp : Int
  mid_price : Double
  bids : List PriceLevel
  asks : List PriceLevel
  deriving DecidableEq, Repr

/-- The result message. -/
structure ProcessedSnapshot where
  timestamp : Int
  mid_price : Double
  spread : Double
  ofi : Double
  obi : Double
  microprice : Double
  divergence : Double
  directional_prob : Double
  regime : Int
  regime_label : String
  vpin : Double
  anomalies : List Anomaly
  deriving DecidableEq, Repr

/-- The member variables of the class `AnalyticsEngine`. -/
structure AnalyticsEngine where
  prev_best_bid : Double
  prev_best_ask : Double
  prev_bid_q : Double
  prev_ask_q : Double
  avg_spread : Double
  avg_spread_sq : Double
  avg_l1_vol : Double
  alpha : Double
  deriving DecidableEq, Repr

/-- The constructor `AnalyticsEngine::AnalyticsEngine()` (lines 6-15). -/
def AnalyticsEngine.AnalyticsEngine : AnalyticsEngine where
  prev_best_bid := 0.0
  prev_best_ask := 0.0
  prev_bid_q := 0.0
  prev_ask_q := 0.0
  avg_spread := 0.05
  avg_spread_sq := 0.0025
  avg_l1_vol := 10.0
  alpha := 0.05

/-- `snapshot.bids_size()`. -/
def Snapshot.bids_size (snapshot : Snapshot) : Nat := snapshot.bids.length

/-- `snapshot.asks_size()`. -/
def Snapshot.asks_size (snapshot : Snapshot) : Nat := snapshot.asks.length

/-- `snapshot.bids(i)`; the source only indexes below `bids_size()`. -/
def Snapshot.bidsAt (snapshot : Snapshot) (i : Nat) : PriceLevel :=
  snapshot.bids.getD i ⟨0, 0⟩

/-- `snapshot.asks(i)`; the source only indexes below `asks_size()`. -/
def Snapshot.asksAt (snapshot : Snapshot) (i : Nat) : PriceLevel :=
  snapshot.asks.getD i ⟨0, 0⟩

/-- The record built by lines 18-32, before any check. -/
def initialResult (snapshot : Snapshot) : ProcessedSnapshot where
  timestamp := snapshot.timestamp
  mid_price := snapshot.mid_price
  spread := 0.0
  ofi := 0.0
  obi := 0.0
  microprice := snapshot.mid_price
  divergence := 0.0
  directional_prob := 50.0
  regime := 0
  regime_label := "Calm"
  vpin := 0.0
  anomalies := []

/-- `AnalyticsEngine::processSnapshot` (lines 17-119) in binary64: the returned
message and the engine after the call. -/
def processSnapshot (e : AnalyticsEngine) (snapshot : Snapshot) :
    ProcessedSnapshot × AnalyticsEngine :=
  let result := initialResult snapshot
  if snapshot.bids_size = 0 ∨ snapshot.asks_size = 0 then (result, e) else
  -- Extract L1 data with validation
  let best_bid_px := (snapshot.bidsAt 0).price
  let best_ask_px := (snapshot.asksAt 0).price
  let best_bid_q := (snapshot.bidsAt 0).volume
  let best_ask_q := (snapshot.asksAt 0).volume
  if best_bid_px ≤ 0 ∨ best_ask_px ≤ 0 ∨ best_bid_q < 0 ∨ best_ask_q < 0 then (result, e) else
  -- spread and its running statistics (lines 49-60)
  let (result, e) :=
    if best_ask_px ≤ best_bid_px then
      ({ result with spread := 0.0 }, e)
    else
      let spread := best_ask_px - best_bid_px
      ({ result with spread := spread },
       { e with
          avg_spread := (1 - e.alpha) * e.avg_spread + e.alpha * spread
          avg_spread_sq := (1 - e.alpha) * e.avg_spread_sq + e.alpha * (spread * spread) })
  -- order flow imbalance (lines 62-71)
  let result :=
    if e.prev_best_bid > 0 ∧ e.prev_best_ask > 0 then
      let bid_change := best_bid_q - e.prev_bid_q
      let ask_change := best_ask_q - e.prev_ask_q
      let ofi := (bid_change - ask_change) / 1000.0
      let ofi := Double.max (-1.0) (Double.min 1.0 ofi)
      { result with ofi := ofi }
    else result
  -- order book imbalance (lines 73-79)
  let total_vol := best_bid_q + best_ask_q
  let result :=
    if total_vol > 1e-9 then
      { result with obi := (best_bid_q - best_ask_q) / total_vol }
    else result
  -- microprice and divergence (lines 81-90)
  let microprice :=
    if total_vol > 1e-9 then
      (best_bid_q * best_ask_px + best_ask_q * best_bid_px) / total_vol
    else snapshot.mid_price
  let result := { result with microprice := microprice }
  let divergence := microprice - snapshot.mid_price
  let result := { result with divergence := divergence }
  -- directional probability (lines 92-97)
  let directional_prob : Double :=
    if Double.abs divergence > 0.01 then (if divergence > 0 then 60.0 else 40.0) else 50.0
  let result := { result with directional_prob := directional_prob }
  -- regime classification (lines 99-106)
  let result :=
    if result.spread > e.avg_spread * 2 then
      { result with regime := 1, regime_label := "Stressed" }
    else
      { result with regime := 0, regime_label := "Calm" }
  -- state for the next call and the L1-volume average (lines 108-116)
  let current_l1_vol := (best_bid_q + best_ask_q) / 2
  let e := { e with
    prev_best_bid := best_bid_px
    prev_best_ask := best_ask_px
    prev_bid_q := best_bid_q
    prev_ask_q := best_ask_q
    avg_l1_vol := (1 - e.alpha) * e.avg_l1_vol + e.alpha * current_l1_vol }
  (result, e)

/-- Neither guard of lines 34-47 fires: both sides are non-empty and none of
`best_bid_px <= 0`, `best_ask_px <= 0`, `best_bid_q < 0`, `best_ask_q < 0`
holds. -/
def Snapshot.accepted (snapshot : Snapshot) : Prop :=
  ¬ (snapshot.bids_size = 0 ∨ snapshot.asks_size = 0) ∧
    ¬ ((snapshot.bidsAt 0).price ≤ 0 ∨ (snapshot.asksAt 0).price ≤ 0 ∨
      (snapshot.bidsAt 0).volume < 0 ∨ (snapshot.asksAt 0).volume < 0)

instance (snapshot : Snapshot) : Decidable snapshot.accepted := by
  unfold Snapshot.accepted; infer_instance

/-- The engine after `processSnapshot` has been called on each snapshot of a
sequence in turn, starting from `e`. -/
def feed (e : AnalyticsEngine) (snapshots : List Snapshot) : AnalyticsEngine :=
  snapshots.foldl (fun e snapshot => (processSnapshot e snapshot).2) e

/-! ### Sample inputs in binary64 -/

/-- The book of the specification's end-to-end example: bid `(100.0, 10)`, ask
`(100.10, 10)`, mid price `100.05`. -/
def specExample : Snapshot := ⟨0, 100.05, [⟨100.0, 10⟩], [⟨100.10, 10⟩]⟩

/-- A book of spread 1: bid `(100.0, 10)`, ask `(101.0, 10)`. -/
def unitTick : Snapshot := ⟨0, 100.5, [⟨100.0, 10.0⟩], [⟨101.0, 10.0⟩]⟩

/-- A book whose best bid volume is `+infinity`. -/
def infiniteVolumeTick : Snapshot := ⟨0, 100.5, [⟨100.0, Double.inf false⟩], [⟨101.0, 10.0⟩]⟩

/-- A book whose best bid price is NaN. -/
def nanPriceTick : Snapshot := ⟨0, 100.5, [⟨Double.nan, 10.0⟩], [⟨101.0, 10.0⟩]⟩

/-- A book with prices `100.0` and `100.05`. -/
def narrowTick : Snapshot := ⟨0, 100.025, [⟨100.0, 10.0⟩], [⟨100.05, 10.0⟩]⟩

/-- Equal volumes `0.1` at prices `100.0` and `100.1`. -/
def evenTick : Snapshot := ⟨0, 100.05, [⟨100.0, 0.1⟩], [⟨100.1, 0.1⟩]⟩

/-- A bid volume one unit in the last place above the ask volume `100`. -/
def barelyBidHeavyTick : Snapshot :=
  ⟨0, 100.5, [⟨100.0, 100.00000000000001⟩], [⟨101.0, 100.0⟩]⟩

/-- All the resting size on the bid: bid `(100.0, 0.7)`, ask `(100.01, 0.0)`. -/
def bidOnlyTick : Snapshot := ⟨0, 100.0, [⟨100.0, 0.7⟩], [⟨100.01, 0.0⟩]⟩

/-- A book whose spread `0.105` (up to rounding) lies between `2 * 0.05` and
`(19 / 9) * 0.05`. -/
def borderTick : Snapshot := ⟨0, 100.05, [⟨100.0, 10.0⟩], [⟨100.105, 10.0⟩]⟩

/-- A book with three times the resting size on the bid: bid `(100.0, 30.0)`,
ask `(100.1, 10.0)`. -/
def bidHeavyBook : Snapshot := ⟨0, 100.05, [⟨100.0, 30.0⟩], [⟨100.1, 10.0⟩]⟩

/-- A book with no resting size at the top: bid `(100.0, 0.0)`, ask
`(100.1, 0.0)`. -/
def emptyTopBook : Snapshot := ⟨0, 100.05, [⟨100.0, 0.0⟩], [⟨100.1, 0.0⟩]⟩

/-- A book whose ask price is twice its bid price `0.847110906052311`. -/
def boundaryTick : Snapshot :=
  ⟨0, 1.0, [⟨0.847110906052311, 10.0⟩], [⟨1.694221812104622, 10.0⟩]⟩

end Binary64

/-! ## Theorems -/

theorem processSnapshot_of_not_valid (e : AnalyticsEngine) (snapshot : Snapshot)
    (h : ¬ snapshot.valid) : processSnapshot e snapshot = (initialResult snapshot, e) := by
  unfold processSnapshot
  by_cases h1 : snapshot.bids_size = 0 ∨ snapshot.asks_size = 0
  · simp [h1]
  · have h2 : (snapshot.bidsAt 0).price ≤ 0 ∨ (snapshot.asksAt 0).price ≤ 0 ∨
        (snapshot.bidsAt 0).volume < 0 ∨ (snapshot.asksAt 0).volume < 0 := by
      unfold Snapshot.valid at h
      push_neg at h1
      by_contra hc
      push_neg at hc
      exact h ⟨h1.1, h1.2, hc.1, hc.2.1, hc.2.2.1, hc.2.2.2⟩
    simp only [h1, h2, if_true, if_false]

theorem valid_iff (snapshot : Snapshot) : snapshot.valid ↔
    ¬ (snapshot.bids_size = 0 ∨ snapshot.asks_size = 0) ∧
    ¬ ((snapshot.bidsAt 0).price ≤ 0 ∨ (snapshot.asksAt 0).price ≤ 0 ∨
        (snapshot.bidsAt 0).volume < 0 ∨ (snapshot.asksAt 0).volume < 0) := by
  unfold Snapshot.valid
  push_neg
  tauto

/-- On a snapshot that passes the top-of-book check, the fields of the result
and of the engine after the call, each as one expression. -/
theorem processSnapshot_of_valid (e : AnalyticsEngine) (snapshot : Snapshot)
    (hv : snapshot.valid) :
    processSnapshot e snapshot =
      (({ timestamp := snapshot.timestamp
          mid_price := snapshot.mid_price
          spread := if (snapshot.asksAt 0).price ≤ (snapshot.bidsAt 0).price then 0
            else (snapshot.asksAt 0).price - (snapshot.bidsAt 0).price
          ofi := if e.prev_best_bid > 0 ∧ e.prev_best_ask > 0 then
              max (-1) (min 1 ((((snapshot.bidsAt 0).volume - e.prev_bid_q) -
                ((snapshot.asksAt 0).volume - e.prev_ask_q)) / 1000.0))
            else 0
          obi := if (snapshot.bidsAt 0).volume + (snapshot.asksAt 0).volume > 1e-9 then
              ((snapshot.bidsAt 0).volume - (snapshot.asksAt 0).volume) /
                ((snapshot.bidsAt 0).volume + (snapshot.asksAt 0).volume)
            else 0
          microprice :=
            if (snapshot.bidsAt 0).volume + (snapshot.asksAt 0).volume > 1e-9 then
              ((snapshot.bidsAt 0).volume * (snapshot.asksAt 0).price +
                (snapshot.asksAt 0).volume * (snapshot.bidsAt 0).price) /
                ((snapshot.bidsAt 0).volume + (snapshot.asksAt 0).volume)
            else snapshot.mid_price
          divergence :=
            (if (snapshot.bidsAt 0).volume + (snapshot.asksAt 0).volume > 1e-9 then
              ((snapshot.bidsAt 0).volume * (snapshot.asksAt 0).price +
                (snapshot.asksAt 0).volume * (snapshot.bidsAt 0).price) /
                ((snapshot.bidsAt 0).volume + (snapshot.asksAt 0).volume)
            else snapshot.mid_price) - snapshot.mid_price
          directional_prob :=
            if |(if (snapshot.bidsAt 0).volume + (snapshot.asksAt 0).volume > 1e-9 then
              ((snapshot.bidsAt 0).volume * (snapshot.asksAt 0).price +
                (snapshot.asksAt 0).volume * (snapshot.bidsAt 0).price) /
                ((snapshot.bidsAt 0).volume + (snapshot.asksAt 0).volume)
            else snapshot.mid_price) - snapshot.mid_price| > 0.01 then
              (if (if (snapshot.bidsAt 0).volume + (snapshot.asksAt 0).volume > 1e-9 then
                ((snapshot.bidsAt 0).volume * (snapshot.asksAt 0).price +
                  (snapshot.asksAt 0).volume * (snapshot.bidsAt 0).price) /
                  ((snapshot.bidsAt 0).volume + (snapshot.asksAt 0).volume)
              else snapshot.mid_price) - snapshot.mid_price > 0 then 60 else 40)
            else 50
          regime :=
            if (if (snapshot.asksAt 0).price ≤ (snapshot.bidsAt 0).price then (0 : ℚ)
                else (snapshot.asksAt 0).price - (snapshot.bidsAt 0).price) >
              (if (snapshot.asksAt 0).price ≤ (snapshot.bidsAt 0).price then e.avg_spread
                else (1 - e.alpha) * e.avg_spread +
                  e.alpha * ((snapshot.asksAt 0).price - (snapshot.bidsAt 0).price)) * 2
            then 1 else 0
          regime_label :=
            if (if (snapshot.asksAt 0).price ≤ (snapshot.bidsAt 0).price then (0 : ℚ)
                else (snapshot.asksAt 0).price - (snapshot.bidsAt 0).price) >
              (if (snapshot.asksAt 0).price ≤ (snapshot.bidsAt 0).price then e.avg_spread
                else (1 - e.alpha) * e.avg_spread +
                  e.alpha * ((snapshot.asksAt 0).price - (snapshot.bidsAt 0).price)) * 2
            then "Stressed" else "Calm"
          vpin := 0
          anomalies := [] } : ProcessedSnapshot),
       ({ prev_best_bid := (snapshot.bidsAt 0).price
          prev_best_ask := (snapshot.asksAt 0).price
          prev_bid_q := (snapshot.bidsAt 0).volume
          prev_ask_q := (snapshot.asksAt 0).volume
          avg_spread :=
            if (snapshot.asksAt 0).price ≤ (snapshot.bidsAt 0).price then e.avg_spread
            else (1 - e.alpha) * e.avg_spread +
              e.alpha * ((snapshot.asksAt 0).price - (snapshot.bidsAt 0).price)
          avg_spread_sq :=
            if (snapshot.asksAt 0).price ≤ (snapshot.bidsAt 0).price then e.avg_spread_sq
            else (1 - e.alpha) * e.avg_spread_sq +
              e.alpha * (((snapshot.asksAt 0).price - (snapshot.bidsAt 0).price) *
                ((snapshot.asksAt 0).price - (snapshot.bidsAt 0).price))
          avg_l1_vol := (1 - e.alpha) * e.avg_l1_vol +
            e.alpha * (((snapshot.bidsAt 0).volume + (snapshot.asksAt 0).volume) / 2)
          alpha := e.alpha } : AnalyticsEngine)) := by
  obtain ⟨h1, h2⟩ := (valid_iff snapshot).1 hv
  unfold processSnapshot initialResult
  simp only [h1, h2, if_false]
  by_cases hc : (snapshot.asksAt 0).price ≤ (snapshot.bidsAt 0).price
  · simp only [hc, if_true]
    split_ifs <;> rfl
  · simp only [hc, if_false]
    split_ifs <;> rfl

/-! ### Rejected snapshots -/

/-- C1: on a snapshot with an empty bid side, an empty ask side, a best bid or
best ask price that is not positive, or a negative best bid or best ask volume,
`processSnapshot` returns the default record (timestamp and mid price copied,
spread, ofi, obi and divergence 0, microprice the mid price, directional
probability 50, regime 0 labelled "Calm", no anomalies) and the engine is
unchanged. -/
theorem processSnapshot_rejected_default (e : AnalyticsEngine) (snapshot : Snapshot)
    (h : snapshot.bids = [] ∨ snapshot.asks = [] ∨
      (snapshot.bidsAt 0).price ≤ 0 ∨ (snapshot.asksAt 0).price ≤ 0 ∨
      (snapshot.bidsAt 0).volume < 0 ∨ (snapshot.asksAt 0).volume < 0) :
    (processSnapshot e snapshot).1 =
      { timestamp := snapshot.timestamp
        mid_price := snapshot.mid_price
        spread := 0
        ofi := 0
        obi := 0
        microprice := snapshot.mid_price
        divergence := 0
        directional_prob := 50.0
        regime := 0
        regime_label := "Calm"
        vpin := 0
        anomalies := [] } ∧
    (processSnapshot e snapshot).2 = e := by
  have hnv : ¬ snapshot.valid := by
    rintro ⟨hb, ha, hbp, hap, hbq, haq⟩
    rcases h with h | h | h | h | h | h
    · exact hb (by simp [Snapshot.bids_size, h])
    · exact ha (by simp [Snapshot.asks_size, h])
    · exact absurd hbp (not_lt.2 h)
    · exact absurd hap (not_lt.2 h)
    · exact absurd h (not_lt.2 hbq)
    · exact absurd h (not_lt.2 haq)
  rw [processSnapshot_of_not_valid e snapshot hnv]
  refine ⟨?_, rfl⟩
  simp only [initialResult]
  norm_num

/-- Instance of C1: a fresh engine fed a book whose best bid price is `-1`. -/
theorem processSnapshot_rejected_default_witness :
    (processSnapshot AnalyticsEngine.AnalyticsEngine
        ⟨7, 100, [⟨-1, 5⟩], [⟨101, 5⟩]⟩).1 =
      { timestamp := 7
        mid_price := 100
        spread := 0
        ofi := 0
        obi := 0
        microprice := 100
        divergence := 0
        directional_prob := 50.0
        regime := 0
        regime_label := "Calm"
        vpin := 0
        anomalies := [] } ∧
    (processSnapshot AnalyticsEngine.AnalyticsEngine
        ⟨7, 100, [⟨-1, 5⟩], [⟨101, 5⟩]⟩).2 = AnalyticsEngine.AnalyticsEngine :=
  processSnapshot_rejected_default AnalyticsEngine.AnalyticsEngine
    ⟨7, 100, [⟨-1, 5⟩], [⟨101, 5⟩]⟩
    (Or.inr (Or.inr (Or.inl (by norm_num [Snapshot.bidsAt]))))

/-! ### Regime -/

/-- C3: on a snapshot that passes the top-of-book check, the result has regime
1 labelled "Stressed" exactly when its spread exceeds twice the engine's
`avg_spread` after the call, and regime 0 labelled "Calm" otherwise. -/
theorem processSnapshot_regime_iff (e : AnalyticsEngine) (snapshot : Snapshot)
    (hv : snapshot.valid) :
    (((processSnapshot e snapshot).1.regime = 1 ∧
        (processSnapshot e snapshot).1.regime_label = "Stressed") ↔
      (processSnapshot e snapshot).1.spread > 2 * (processSnapshot e snapshot).2.avg_spread) ∧
    (¬ (processSnapshot e snapshot).1.spread > 2 * (processSnapshot e snapshot).2.avg_spread →
      (processSnapshot e snapshot).1.regime = 0 ∧
        (processSnapshot e snapshot).1.regime_label = "Calm") := by
  rw [processSnapshot_of_valid e snapshot hv]
  simp only [mul_comm (2 : ℚ)]
  constructor
  · constructor
    · rintro ⟨hr, -⟩
      by_contra hn
      rw [if_neg hn] at hr
      exact absurd hr (by decide)
    · intro hgt
      rw [if_pos hgt, if_pos hgt]
      exact ⟨rfl, rfl⟩
  · intro hn
    rw [if_neg hn, if_neg hn]
    exact ⟨rfl, rfl⟩

/-- Instance of C3: the fresh engine on a book with spread 1 is "Stressed". -/
theorem processSnapshot_regime_iff_witness :
    (((processSnapshot AnalyticsEngine.AnalyticsEngine
          ⟨0, 100.5, [⟨100, 10⟩], [⟨101, 10⟩]⟩).1.regime = 1 ∧
        (processSnapshot AnalyticsEngine.AnalyticsEngine
          ⟨0, 100.5, [⟨100, 10⟩], [⟨101, 10⟩]⟩).1.regime_label = "Stressed") ↔
      (processSnapshot AnalyticsEngine.AnalyticsEngine
          ⟨0, 100.5, [⟨100, 10⟩], [⟨101, 10⟩]⟩).1.spread >
        2 * (processSnapshot AnalyticsEngine.AnalyticsEngine
          ⟨0, 100.5, [⟨100, 10⟩], [⟨101, 10⟩]⟩).2.avg_spread) ∧
    (¬ (processSnapshot AnalyticsEngine.AnalyticsEngine
          ⟨0, 100.5, [⟨100, 10⟩], [⟨101, 10⟩]⟩).1.spread >
        2 * (processSnapshot AnalyticsEngine.AnalyticsEngine
          ⟨0, 100.5, [⟨100, 10⟩], [⟨101, 10⟩]⟩).2.avg_spread →
      (processSnapshot AnalyticsEngine.AnalyticsEngine
          ⟨0, 100.5, [⟨100, 10⟩], [⟨101, 10⟩]⟩).1.regime = 0 ∧
        (processSnapshot AnalyticsEngine.AnalyticsEngine
          ⟨0, 100.5, [⟨100, 10⟩], [⟨101, 10⟩]⟩).1.regime_label = "Calm") :=
  processSnapshot_regime_iff AnalyticsEngine.AnalyticsEngine
    ⟨0, 100.5, [⟨100, 10⟩], [⟨101, 10⟩]⟩
    (by norm_num [Snapshot.valid, Snapshot.bids_size, Snapshot.asks_size, Snapshot.bidsAt,
      Snapshot.asksAt])

/-! ### Order flow imbalance -/

theorem feed_cons (e : AnalyticsEngine) (snapshot : Snapshot) (rest : List Snapshot) :
    feed e (snapshot :: rest) = feed (processSnapshot e snapshot).2 rest := rfl

theorem foldl_count (p : Nat → Prop) [DecidablePred p] (l : List Nat) (init : Nat) :
    l.foldl (fun c i => if p i then c + 1 else c) init = init + (l.filter (fun i => p i)).length := by
  induction l generalizing init with
  | nil => simp
  | cons i rest ih =>
    rw [List.foldl_cons, ih]
    by_cases hp : p i
    · simp [hp, List.filter_cons]
      omega
    · simp [hp, List.filter_cons]

/-- The loop counter equals the count the specification describes. -/
theorem gapCount_eq_specGapCount (snapshot : Snapshot) :
    gapCount snapshot = specGapCount snapshot := by
  unfold gapCount specGapCount Snapshot.bids_size Snapshot.asks_size
  rw [foldl_count (fun i => (snapshot.bidsAt i).volume < 50 ∨ (snapshot.asksAt i).volume < 50)]
  simp

/-- The anomaly list after the call: the list before it, then one optional
record for each of the four checks, in source order. -/
theorem detectAnomalies_anomalies (e : AnalyticsEngine) (snapshot : Snapshot)
    (result : ProcessedSnapshot) (spread obi best_bid_q best_ask_q : ℚ) :
    (detectAnomalies e snapshot result spread obi best_bid_q best_ask_q).1.anomalies =
      result.anomalies ++
        ((if gapCount snapshot > 3 then
            [({ type := "LIQUIDITY_GAP"
                severity := if gapCount snapshot > 6 then "critical" else "high"
                message := "Liquidity gaps detected at " ++ to_string_int (gapCount snapshot) ++
                  " levels" } : Anomaly)]
          else []) ++
        ((if |obi| > 0.5 then
            [({ type := "HEAVY_IMBALANCE"
                severity := "high"
                message := if obi > 0 then "Heavy BUY pressure" else "Heavy SELL pressure" } :
              Anomaly)]
          else []) ++
        ((if spread > 0 ∧ spread > e.avg_spread * 3 then
            [({ type := "SPREAD_SHOCK"
                severity := "medium"
                message := "Wide spread detected: " ++ to_string_double spread } : Anomaly)]
          else []) ++
         (if (best_bid_q + best_ask_q) / 2 > e.avg_l1_vol * 4 then
            [({ type := "LARGE_ORDER"
                severity := "medium"
                message := "Unusually large L1 volume detected" } : Anomaly)]
          else [])))) := by
  unfold detectAnomalies
  simp only []
  split_ifs <;> simp [ProcessedSnapshot.add_anomalies]

theorem appended_eq (e : AnalyticsEngine) (snapshot : Snapshot)
    (result : ProcessedSnapshot) (spread obi best_bid_q best_ask_q : ℚ) :
    appended e snapshot result spread obi best_bid_q best_ask_q =
        ((if gapCount snapshot > 3 then
            [({ type := "LIQUIDITY_GAP"
                severity := if gapCount snapshot > 6 then "critical" else "high"
                message := "Liquidity gaps detected at " ++ to_string_int (gapCount snapshot) ++
                  " levels" } : Anomaly)]
          else []) ++
        ((if |obi| > 0.5 then
            [({ type := "HEAVY_IMBALANCE"
                severity := "high"
                message := if obi > 0 then "Heavy BUY pressure" else "Heavy SELL pressure" } :
              Anomaly)]
          else []) ++
        ((if spread > 0 ∧ spread > e.avg_spread * 3 then
            [({ type := "SPREAD_SHOCK"
                severity := "medium"
                message := "Wide spread detected: " ++ to_string_double spread } : Anomaly)]
          else []) ++
         (if (best_bid_q + best_ask_q) / 2 > e.avg_l1_vol * 4 then
            [({ type := "LARGE_ORDER"
                severity := "medium"
                message := "Unusually large L1 volume detected" } : Anomaly)]
          else [])))) := by
  unfold appended
  rw [detectAnomalies_anomalies, List.drop_left]

/-- The types of the appended records. -/
theorem appended_types (e : AnalyticsEngine) (snapshot : Snapshot)
    (result : ProcessedSnapshot) (spread obi best_bid_q best_ask_q : ℚ) :
    (appended e snapshot result spread obi best_bid_q best_ask_q).map Anomaly.type =
      (if gapCount snapshot > 3 then ["LIQUIDITY_GAP"] else []) ++
      ((if |obi| > 0.5 then ["HEAVY_IMBALANCE"] else []) ++
      ((if spread > 0 ∧ spread > e.avg_spread * 3 then ["SPREAD_SHOCK"] else []) ++
       (if (best_bid_q + best_ask_q) / 2 > e.avg_l1_vol * 4 then ["LARGE_ORDER"] else []))) := by
  rw [appended_eq]
  simp only [List.map_append, apply_ite (List.map Anomaly.type), List.map_cons, List.map_nil]

/-- C7: the types of the records `detectAnomalies` appends form a subsequence
of LIQUIDITY_GAP, HEAVY_IMBALANCE, SPREAD_SHOCK, LARGE_ORDER (so each type occurs
at most once), and when all four conditions hold they are exactly these four,
in this order. -/
theorem detectAnomalies_order (e : AnalyticsEngine) (snapshot : Snapshot)
    (result : ProcessedSnapshot) (spread obi best_bid_q best_ask_q : ℚ) :
    ((appended e snapshot result spread obi best_bid_q best_ask_q).map Anomaly.type).Sublist
      ["LIQUIDITY_GAP", "HEAVY_IMBALANCE", "SPREAD_SHOCK", "LARGE_ORDER"] ∧
    (specGapCount snapshot > 3 ∧ |obi| > 0.5 ∧ (spread > 0 ∧ spread > 3 * e.avg_spread) ∧
        (best_bid_q + best_ask_q) / 2 > 4 * e.avg_l1_vol →
      (appended e snapshot result spread obi best_bid_q best_ask_q).map Anomaly.type =
        ["LIQUIDITY_GAP", "HEAVY_IMBALANCE", "SPREAD_SHOCK", "LARGE_ORDER"]) := by
  rw [appended_types, ← gapCount_eq_specGapCount]
  constructor
  · split_ifs <;> decide
  · rintro ⟨hg, ho, hs, hl⟩
    rw [mul_comm] at hl
    rw [mul_comm 3] at hs
    rw [if_pos hg, if_pos ho, if_pos hs, if_pos hl]
    rfl

/-- Instance of C7: all four checks fire on the thin book. -/
theorem detectAnomalies_order_witness :
    (appended AnalyticsEngine.AnalyticsEngine thinBook (initialResult thinBook)
        1 0.8 100 100).map Anomaly.type =
      ["LIQUIDITY_GAP", "HEAVY_IMBALANCE", "SPREAD_SHOCK", "LARGE_ORDER"] :=
  (detectAnomalies_order AnalyticsEngine.AnalyticsEngine thinBook (initialResult thinBook)
    1 0.8 100 100).2
    ⟨by decide, by norm_num [abs_of_pos], by norm_num [AnalyticsEngine.AnalyticsEngine],
      by norm_num [AnalyticsEngine.AnalyticsEngine]⟩

/-- C8: with `gap_count` the number of indices below
`min(10, number of bid levels, number of ask levels)` at which the bid volume or
the ask volume is below 50, `detectAnomalies` appends a LIQUIDITY_GAP record
exactly when `gap_count > 3`, and then exactly one, with severity "critical" if
`gap_count > 6` and "high" otherwise, and with the decimal `gap_count` in its
message; a snapshot with at least 10 levels per side and exactly 7 such indices
among the first 10 gets the "critical" record. -/
theorem detectAnomalies_liquidity_gap (e : AnalyticsEngine) (snapshot : Snapshot)
    (result : ProcessedSnapshot) (spread obi best_bid_q best_ask_q : ℚ) :
    (appended e snapshot result spread obi best_bid_q best_ask_q).filter
        (fun a => a.type == "LIQUIDITY_GAP") =
      (if specGapCount snapshot > 3 then
        [{ type := "LIQUIDITY_GAP"
           severity := if specGapCount snapshot > 6 then "critical" else "high"
           message := "Liquidity gaps detected at " ++ toString (specGapCount snapshot) ++
             " levels" }]
      else []) ∧
    ((∃ a ∈ appended e snapshot result spread obi best_bid_q best_ask_q,
        a.type = "LIQUIDITY_GAP") ↔ specGapCount snapshot > 3) ∧
    (10 ≤ snapshot.bids.length ∧ 10 ≤ snapshot.asks.length ∧
        ((List.range 10).filter (fun i =>
          (snapshot.bidsAt i).volume < 50 ∨ (snapshot.asksAt i).volume < 50)).length = 7 →
      { type := "LIQUIDITY_GAP"
        severity := "critical"
        message := "Liquidity gaps detected at 7 levels" } ∈
        appended e snapshot result spread obi best_bid_q best_ask_q) := by
  have hfilter : (appended e snapshot result spread obi best_bid_q best_ask_q).filter
        (fun a => a.type == "LIQUIDITY_GAP") =
      (if specGapCount snapshot > 3 then
        [{ type := "LIQUIDITY_GAP"
           severity := if specGapCount snapshot > 6 then "critical" else "high"
           message := "Liquidity gaps detected at " ++ toString (specGapCount snapshot) ++
             " levels" }]
      else []) := by
    rw [appended_eq, gapCount_eq_specGapCount]
    simp only [List.filter_append, apply_ite (List.filter _), List.filter_cons, List.filter_nil,
      to_string_int]
    simp
  refine ⟨hfilter, ?_, ?_⟩
  · constructor
    · rintro ⟨a, ha, hty⟩
      by_contra hn
      have hmem : a ∈ (appended e snapshot result spread obi best_bid_q best_ask_q).filter
          (fun a => a.type == "LIQUIDITY_GAP") := by
        rw [List.mem_filter]
        exact ⟨ha, by simp [hty]⟩
      rw [hfilter, if_neg hn] at hmem
      exact absurd hmem (List.not_mem_nil a)
    · intro hg
      have hmem : (⟨"LIQUIDITY_GAP", if specGapCount snapshot > 6 then "critical" else "high",
          "Liquidity gaps detected at " ++ toString (specGapCount snapshot) ++ " levels"⟩ :
            Anomaly) ∈
          (appended e snapshot result spread obi best_bid_q best_ask_q).filter
            (fun a => a.type == "LIQUIDITY_GAP") := by
        rw [hfilter, if_pos hg]
        exact List.mem_singleton_self _
      exact ⟨_, (List.mem_filter.1 hmem).1, rfl⟩
  · rintro ⟨hb, ha, h7⟩
    have hg : specGapCount snapshot = 7 := by
      unfold specGapCount
      rw [min_eq_left (le_min hb ha)]
      exact h7
    have hmem : (⟨"LIQUIDITY_GAP", "critical", "Liquidity gaps detected at 7 levels"⟩ :
        Anomaly) ∈
          (appended e snapshot result spread obi best_bid_q best_ask_q).filter
            (fun a => a.type == "LIQUIDITY_GAP") := by
      rw [hfilter, hg]
      decide
    exact (List.mem_filter.1 hmem).1

/-- Instance of C8: the thin book has 7 thin levels among its first 10. -/
theorem detectAnomalies_liquidity_gap_witness :
    specGapCount thinBook = 7 ∧
    ({ type := "LIQUIDITY_GAP"
       severity := "critical"
       message := "Liquidity gaps detected at 7 levels" } : Anomaly) ∈
      appended AnalyticsEngine.AnalyticsEngine thinBook (initialResult thinBook) 0 0 0 0 :=
  ⟨by decide,
    (detectAnomalies_liquidity_gap AnalyticsEngine.AnalyticsEngine thinBook
      (initialResult thinBook) 0 0 0 0).2.2 ⟨by decide, by decide, by decide⟩⟩

/-- C9: whatever the other three checks do, `detectAnomalies` appends a
HEAVY_IMBALANCE record exactly when `|obi| > 0.5` (severity "high", message
"Heavy BUY pressure" if `obi > 0`, else "Heavy SELL pressure"), a SPREAD_SHOCK
record exactly when `spread > 0` and `spread > 3 * avg_spread` (severity
"medium"), and a LARGE_ORDER record exactly when
`(best_bid_q + best_ask_q) / 2 > 4 * avg_l1_vol` (severity "medium", message
"Unusually large L1 volume detected"); each at most once. -/
theorem detectAnomalies_independent (e : AnalyticsEngine) (snapshot : Snapshot)
    (result : ProcessedSnapshot) (spread obi best_bid_q best_ask_q : ℚ) :
    (appended e snapshot result spread obi best_bid_q best_ask_q).filter
        (fun a => a.type == "HEAVY_IMBALANCE") =
      (if |obi| > 0.5 then
        [{ type := "HEAVY_IMBALANCE"
           severity := "high"
           message := if obi > 0 then "Heavy BUY pressure" else "Heavy SELL pressure" }]
      else []) ∧
    (appended e snapshot result spread obi best_bid_q best_ask_q).filter
        (fun a => a.type == "SPREAD_SHOCK") =
      (if spread > 0 ∧ spread > 3 * e.avg_spread then
        [{ type := "SPREAD_SHOCK"
           severity := "medium"
           message := "Wide spread detected: " ++ to_string_double spread }]
      else []) ∧
    (appended e snapshot result spread obi best_bid_q best_ask_q).filter
        (fun a => a.type == "LARGE_ORDER") =
      (if (best_bid_q + best_ask_q) / 2 > 4 * e.avg_l1_vol then
        [{ type := "LARGE_ORDER"
           severity := "medium"
           message := "Unusually large L1 volume detected" }]
      else []) := by
  rw [appended_eq, mul_comm 3, mul_comm 4]
  simp only [List.filter_append, apply_ite (List.filter _), List.filter_cons, List.filter_nil]
  refine ⟨?_, ?_, ?_⟩ <;> simp

/-- Instance of C9: with `obi = -0.8` and nothing else out of range, only the
HEAVY_IMBALANCE record, with the SELL message, is appended for that type. -/
theorem detectAnomalies_independent_witness :
    (appended AnalyticsEngine.AnalyticsEngine firstTick (initialResult firstTick)
        0 (-0.8) 10 10).filter (fun a => a.type == "HEAVY_IMBALANCE") =
      [{ type := "HEAVY_IMBALANCE"
         severity := "high"
         message := "Heavy SELL pressure" }] := by
  have h := (detectAnomalies_independent AnalyticsEngine.AnalyticsEngine firstTick
    (initialResult firstTick) 0 (-0.8) 10 10).1
  rw [if_pos (by norm_num [abs_of_neg]), if_neg (by norm_num)] at h
  exact h

theorem ite_add_anomalies (c : Prop) [Decidable c] (result : ProcessedSnapshot)
    (anomaly : Anomaly) :
    (if c then result.add_anomalies anomaly else result) =
      { result with anomalies := result.anomalies ++ (if c then [anomaly] else []) } := by
  split_ifs
  · rfl
  · simp

/-- C10: `detectAnomalies` returns the engine it was given, changes no field of
the result other than the anomaly list, and the anomaly list after the call
starts with the list before the call. -/
theorem detectAnomalies_frame (e : AnalyticsEngine) (snapshot : Snapshot)
    (result : ProcessedSnapshot) (spread obi best_bid_q best_ask_q : ℚ) :
    (detectAnomalies e snapshot result spread obi best_bid_q best_ask_q).2 = e ∧
    { (detectAnomalies e snapshot result spread obi best_bid_q best_ask_q).1 with
        anomalies := result.anomalies } = result ∧
    result.anomalies <+:
      (detectAnomalies e snapshot result spread obi best_bid_q best_ask_q).1.anomalies := by
  refine ⟨rfl, ?_, ?_⟩
  · unfold detectAnomalies
    simp only [ite_add_anomalies]
  · rw [detectAnomalies_anomalies]
    exact List.prefix_append _ _

/-- Instance of C10: the fresh engine is returned as it was. -/
theorem detectAnomalies_frame_witness :
    (detectAnomalies AnalyticsEngine.AnalyticsEngine thinBook (initialResult thinBook)
        1 0.8 100 100).2 = AnalyticsEngine.AnalyticsEngine :=
  (detectAnomalies_frame AnalyticsEngine.AnalyticsEngine thinBook (initialResult thinBook)
    1 0.8 100 100).1

/-! ### Sequences of calls -/

theorem feed_append (e : AnalyticsEngine) (l₁ l₂ : List Snapshot) :
    feed e (l₁ ++ l₂) = feed (feed e l₁) l₂ := by
  unfold feed
  rw [List.foldl_append]

/-! ### Rejected snapshots leave no trace -/

theorem not_valid_of_rejected (snapshot : Snapshot)
    (h : snapshot.bids = [] ∨ snapshot.asks = [] ∨
      (snapshot.bidsAt 0).price ≤ 0 ∨ (snapshot.asksAt 0).price ≤ 0 ∨
      (snapshot.bidsAt 0).volume < 0 ∨ (snapshot.asksAt 0).volume < 0) :
    ¬ snapshot.valid := by
  rintro ⟨hb, ha, hbp, hap, hbq, haq⟩
  rcases h with h | h | h | h | h | h
  · exact hb (by simp [Snapshot.bids_size, h])
  · exact ha (by simp [Snapshot.asks_size, h])
  · exact absurd hbp (not_lt.2 h)
  · exact absurd hap (not_lt.2 h)
  · exact absurd h (not_lt.2 hbq)
  · exact absurd h (not_lt.2 haq)

/-- C12: for a snapshot with an empty side, a best price that is not positive
or a negative best volume, a second call of `processSnapshot` on it returns the
same result as the first, and the result of any later call is what it would be
had the snapshot not been fed, wherever in the sequence it was fed. -/
theorem processSnapshot_rejected_idempotent (e : AnalyticsEngine) (snapshot : Snapshot)
    (h : snapshot.bids = [] ∨ snapshot.asks = [] ∨
      (snapshot.bidsAt 0).price ≤ 0 ∨ (snapshot.asksAt 0).price ≤ 0 ∨
      (snapshot.bidsAt 0).volume < 0 ∨ (snapshot.asksAt 0).volume < 0) :
    (processSnapshot (processSnapshot e snapshot).2 snapshot).1 =
      (processSnapshot e snapshot).1 ∧
    (∀ later : Snapshot,
      processSnapshot (processSnapshot e snapshot).2 later = processSnapshot e later) ∧
    (∀ (before after : List Snapshot) (later : Snapshot),
      processSnapshot (feed e (before ++ snapshot :: after)) later =
        processSnapshot (feed e (before ++ after)) later) := by
  have hnv := not_valid_of_rejected snapshot h
  have hstate : ∀ e' : AnalyticsEngine, (processSnapshot e' snapshot).2 = e' := by
    intro e'
    rw [processSnapshot_of_not_valid e' snapshot hnv]
  refine ⟨by rw [hstate], fun later => by rw [hstate], fun before after later => ?_⟩
  rw [feed_append, feed_append, feed_cons, hstate]

/-- Instance of C12: the book with an empty ask side, fed twice to the fresh
engine. -/
theorem processSnapshot_rejected_idempotent_witness :
    (processSnapshot (processSnapshot AnalyticsEngine.AnalyticsEngine oneSidedTick).2
        oneSidedTick).1 =
      (processSnapshot AnalyticsEngine.AnalyticsEngine oneSidedTick).1 :=
  (processSnapshot_rejected_idempotent AnalyticsEngine.AnalyticsEngine oneSidedTick
    (Or.inr (Or.inl rfl))).1

/-! ### The state invariant -/

theorem engineInvariant_fresh : engineInvariant AnalyticsEngine.AnalyticsEngine := by
  unfold engineInvariant
  norm_num [AnalyticsEngine.AnalyticsEngine]

theorem engineInvariant_processSnapshot (e : AnalyticsEngine) (snapshot : Snapshot)
    (h : engineInvariant e) : engineInvariant (processSnapshot e snapshot).2 := by
  by_cases hv : snapshot.valid
  · obtain ⟨hs, hsq, hl, hα, -, -, -⟩ := h
    rw [processSnapshot_of_valid e snapshot hv]
    obtain ⟨-, -, hbp, hap, hbq, haq⟩ := hv
    refine ⟨?_, ?_, ?_, hα, hbq, haq, Or.inr ⟨hbp, hap⟩⟩
    · show 0 < ite _ _ _
      split_ifs with hc
      · exact hs
      · rw [hα]
        have hsp : 0 < (snapshot.asksAt 0).price - (snapshot.bidsAt 0).price :=
          sub_pos.2 (not_le.1 hc)
        norm_num
        positivity
    · show 0 < ite _ _ _
      split_ifs with hc
      · exact hsq
      · rw [hα]
        have hsp : 0 < (snapshot.asksAt 0).price - (snapshot.bidsAt 0).price :=
          sub_pos.2 (not_le.1 hc)
        norm_num
        positivity
    · show 0 < (1 - e.alpha) * e.avg_l1_vol +
        e.alpha * (((snapshot.bidsAt 0).volume + (snapshot.asksAt 0).volume) / 2)
      rw [hα]
      norm_num
      positivity
  · rw [processSnapshot_of_not_valid e snapshot hv]
    exact h

theorem engineInvariant_feed (e : AnalyticsEngine) (snapshots : List Snapshot)
    (h : engineInvariant e) : engineInvariant (feed e snapshots) := by
  induction snapshots generalizing e with
  | nil => exact h
  | cons p rest ih =>
    rw [feed_cons]
    exact ih _ (engineInvariant_processSnapshot e p h)

/-! ### The previous-tick fields -/

/-- C14: in every engine state reached from the fresh engine, a snapshot that
passes the top-of-book check with best ask price not above best bid price gets
spread 0 and regime 0 labelled "Calm", and `avg_spread` and `avg_spread_sq`
keep their values. -/
theorem processSnapshot_crossed (earlier : List Snapshot) (snapshot : Snapshot)
    (hv : snapshot.valid) (hc : (snapshot.asksAt 0).price ≤ (snapshot.bidsAt 0).price) :
    (processSnapshot (feed AnalyticsEngine.AnalyticsEngine earlier) snapshot).1.spread = 0 ∧
    (processSnapshot (feed AnalyticsEngine.AnalyticsEngine earlier) snapshot).1.regime = 0 ∧
    (processSnapshot (feed AnalyticsEngine.AnalyticsEngine earlier) snapshot).1.regime_label =
      "Calm" ∧
    (processSnapshot (feed AnalyticsEngine.AnalyticsEngine earlier) snapshot).2.avg_spread =
      (feed AnalyticsEngine.AnalyticsEngine earlier).avg_spread ∧
    (processSnapshot (feed AnalyticsEngine.AnalyticsEngine earlier) snapshot).2.avg_spread_sq =
      (feed AnalyticsEngine.AnalyticsEngine earlier).avg_spread_sq := by
  have hpos := (engineInvariant_feed AnalyticsEngine.AnalyticsEngine earlier
    engineInvariant_fresh).1
  generalize feed AnalyticsEngine.AnalyticsEngine earlier = e at hpos ⊢
  rw [processSnapshot_of_valid e snapshot hv]
  have hreg : ¬ ((if (snapshot.asksAt 0).price ≤ (snapshot.bidsAt 0).price then (0 : ℚ)
        else (snapshot.asksAt 0).price - (snapshot.bidsAt 0).price) >
      (if (snapshot.asksAt 0).price ≤ (snapshot.bidsAt 0).price then e.avg_spread
        else (1 - e.alpha) * e.avg_spread +
          e.alpha * ((snapshot.asksAt 0).price - (snapshot.bidsAt 0).price)) * 2) := by
    rw [if_pos hc, if_pos hc]
    linarith
  exact ⟨if_pos hc, if_neg hreg, if_neg hreg, if_pos hc, if_pos hc⟩

/-- Instance of C14: the crossed book after one accepted tick. -/
theorem processSnapshot_crossed_witness :
    (processSnapshot (feed AnalyticsEngine.AnalyticsEngine [firstTick]) crossedTick).1.spread =
      0 ∧
    (processSnapshot (feed AnalyticsEngine.AnalyticsEngine [firstTick])
      crossedTick).1.regime_label = "Calm" :=
  ⟨(processSnapshot_crossed [firstTick] crossedTick (by decide) (by decide)).1,
    (processSnapshot_crossed [firstTick] crossedTick (by decide) (by decide)).2.2.1⟩

/-! ### The L1-volume average -/

/-- C15: on every snapshot that passes the top-of-book check, crossed or not,
`avg_l1_vol` becomes
`(1 - alpha) * avg_l1_vol + alpha * ((best_bid_q + best_ask_q) / 2)` and `alpha`
keeps its value; with `alpha = 0.05` that is
`(1 - 0.05) * avg_l1_vol + 0.05 * ((best_bid_q + best_ask_q) / 2)`. -/
theorem processSnapshot_avg_l1_vol (e : AnalyticsEngine) (snapshot : Snapshot)
    (hv : snapshot.valid) :
    (processSnapshot e snapshot).2.avg_l1_vol =
      (1 - e.alpha) * e.avg_l1_vol +
        e.alpha * (((snapshot.bidsAt 0).volume + (snapshot.asksAt 0).volume) / 2) ∧
    (processSnapshot e snapshot).2.alpha = e.alpha ∧
    (e.alpha = 0.05 →
      (processSnapshot e snapshot).2.avg_l1_vol =
        (1 - 0.05) * e.avg_l1_vol +
          0.05 * (((snapshot.bidsAt 0).volume + (snapshot.asksAt 0).volume) / 2)) := by
  rw [processSnapshot_of_valid e snapshot hv]
  refine ⟨rfl, rfl, fun hα => ?_⟩
  rw [hα]

/-- Instance of C15: the crossed book moves the fresh engine's `avg_l1_vol`
from 10 to 10.25. -/
theorem processSnapshot_avg_l1_vol_witness :
    (processSnapshot AnalyticsEngine.AnalyticsEngine crossedTick).2.avg_l1_vol = 10.25 := by
  rw [(processSnapshot_avg_l1_vol AnalyticsEngine.AnalyticsEngine crossedTick
    (by decide)).2.2 rfl]
  norm_num [crossedTick, Snapshot.bidsAt, Snapshot.asksAt, AnalyticsEngine.AnalyticsEngine]

/-! ### `processSnapshot` does not detect anomalies -/

/-- C20: for every engine and snapshot the result of `processSnapshot` has an
empty anomaly list, whatever conditions of `detectAnomalies` the snapshot meets;
the anomalies of a result are those a separate call of `detectAnomalies` on it
appends. -/
theorem processSnapshot_no_anomalies (e : AnalyticsEngine) (snapshot : Snapshot) :
    (processSnapshot e snapshot).1.anomalies = [] ∧
    (∀ (e₁ : AnalyticsEngine) (spread obi best_bid_q best_ask_q : ℚ),
      (detectAnomalies e₁ snapshot (processSnapshot e snapshot).1 spread obi best_bid_q
          best_ask_q).1.anomalies =
        appended e₁ snapshot (processSnapshot e snapshot).1 spread obi best_bid_q
          best_ask_q) := by
  have hnil : (processSnapshot e snapshot).1.anomalies = [] := by
    by_cases hv : snapshot.valid
    · rw [processSnapshot_of_valid e snapshot hv]
    · rw [processSnapshot_of_not_valid e snapshot hv]
      rfl
  refine ⟨hnil, fun e₁ spread obi best_bid_q best_ask_q => ?_⟩
  unfold appended
  rw [hnil]
  rfl

/-- Instance of C20: the thin book meets the LIQUIDITY_GAP condition, and the
result of `processSnapshot` on it still has no anomaly. -/
theorem processSnapshot_no_anomalies_witness :
    specGapCount thinBook > 3 ∧
    (processSnapshot AnalyticsEngine.AnalyticsEngine thinBook).1.anomalies = [] :=
  ⟨by decide, (processSnapshot_no_anomalies AnalyticsEngine.AnalyticsEngine thinBook).1⟩

/-! ## Theorems on the binary64 reading -/

namespace Binary64

theorem processSnapshot_of_not_accepted (e : AnalyticsEngine) (snapshot : Snapshot)
    (h : ¬ snapshot.accepted) : processSnapshot e snapshot = (initialResult snapshot, e) := by
  unfold processSnapshot
  by_cases h1 : snapshot.bids_size = 0 ∨ snapshot.asks_size = 0
  · simp only [h1, if_true]
  · have h2 : (snapshot.bidsAt 0).price ≤ 0 ∨ (snapshot.asksAt 0).price ≤ 0 ∨
        (snapshot.bidsAt 0).volume < 0 ∨ (snapshot.asksAt 0).volume < 0 := by
      by_contra hc
      exact h ⟨h1, hc⟩
    simp only [h1, h2, if_true, if_false]

/-- On a snapshot that neither guard rejects, the fields of the result and of
the engine after the call, each as one binary64 expression. -/
theorem processSnapshot_of_accepted (e : AnalyticsEngine) (snapshot : Snapshot)
    (hv : snapshot.accepted) :
    processSnapshot e snapshot =
      (({ timestamp := snapshot.timestamp
          mid_price := snapshot.mid_price
          spread := if (snapshot.asksAt 0).price ≤ (snapshot.bidsAt 0).price then 0.0
            else (snapshot.asksAt 0).price - (snapshot.bidsAt 0).price
          ofi := if e.prev_best_bid > 0 ∧ e.prev_best_ask > 0 then
              Double.max (-1.0) (Double.min 1.0 ((((snapshot.bidsAt 0).volume - e.prev_bid_q) -
                ((snapshot.asksAt 0).volume - e.prev_ask_q)) / 1000.0))
            else 0.0
          obi := if (snapshot.bidsAt 0).volume + (snapshot.asksAt 0).volume > 1e-9 then
              ((snapshot.bidsAt 0).volume - (snapshot.asksAt 0).volume) /
                ((snapshot.bidsAt 0).volume + (snapshot.asksAt 0).volume)
            else 0.0
          microprice :=
            if (snapshot.bidsAt 0).volume + (snapshot.asksAt 0).volume > 1e-9 then
              ((snapshot.bidsAt 0).volume * (snapshot.asksAt 0).price +
                (snapshot.asksAt 0).volume * (snapshot.bidsAt 0).price) /
                ((snapshot.bidsAt 0).volume + (snapshot.asksAt 0).volume)
            else snapshot.mid_price
          divergence :=
            (if (snapshot.bidsAt 0).volume + (snapshot.asksAt 0).volume > 1e-9 then
              ((snapshot.bidsAt 0).volume * (snapshot.asksAt 0).price +
                (snapshot.asksAt 0).volume * (snapshot.bidsAt 0).price) /
                ((snapshot.bidsAt 0).volume + (snapshot.asksAt 0).volume)
            else snapshot.mid_price) - snapshot.mid_price
          directional_prob :=
            if Double.abs
                ((if (snapshot.bidsAt 0).volume + (snapshot.asksAt 0).volume > 1e-9 then
                  ((snapshot.bidsAt 0).volume * (snapshot.asksAt 0).price +
                    (snapshot.asksAt 0).volume * (snapshot.bidsAt 0).price) /
                    ((snapshot.bidsAt 0).volume + (snapshot.asksAt 0).volume)
                else snapshot.mid_price) - snapshot.mid_price) > 0.01 then
              (if (if (snapshot.bidsAt 0).volume + (snapshot.asksAt 0).volume > 1e-9 then
                ((snapshot.bidsAt 0).volume * (snapshot.asksAt 0).price +
                  (snapshot.asksAt 0).volume * (snapshot.bidsAt 0).price) /
                  ((snapshot.bidsAt 0).volume + (snapshot.asksAt 0).volume)
              else snapshot.mid_price) - snapshot.mid_price > 0 then 60.0 else 40.0)
            else 50.0
          regime :=
            if (if (snapshot.asksAt 0).price ≤ (snapshot.bidsAt 0).price then (0.0 : Double)
                else (snapshot.asksAt 0).price - (snapshot.bidsAt 0).price) >
              (if (snapshot.asksAt 0).price ≤ (snapshot.bidsAt 0).price then e.avg_spread
                else (1 - e.alpha) * e.avg_spread +
                  e.alpha * ((snapshot.asksAt 0).price - (snapshot.bidsAt 0).price)) * 2
            then 1 else 0
          regime_label :=
            if (if (snapshot.asksAt 0).price ≤ (snapshot.bidsAt 0).price then (0.0 : Double)
                else (snapshot.asksAt 0).price - (snapshot.bidsAt 0).price) >
              (if (snapshot.asksAt 0).price ≤ (snapshot.bidsAt 0).price then e.avg_spread
                else (1 - e.alpha) * e.avg_spread +
                  e.alpha * ((snapshot.asksAt 0).price - (snapshot.bidsAt 0).price)) * 2
            then "Stressed" else "Calm"
          vpin := 0.0
          anomalies := [] } : ProcessedSnapshot),
       ({ prev_best_bid := (snapshot.bidsAt 0).price
          prev_best_ask := (snapshot.asksAt 0).price
          prev_bid_q := (snapshot.bidsAt 0).volume
          prev_ask_q := (snapshot.asksAt 0).volume
          avg_spread :=
            if (snapshot.asksAt 0).price ≤ (snapshot.bidsAt 0).price then e.avg_spread
            else (1 - e.alpha) * e.avg_spread +
              e.alpha * ((snapshot.asksAt 0).price - (snapshot.bidsAt 0).price)
          avg_spread_sq :=
            if (snapshot.asksAt 0).price ≤ (snapshot.bidsAt 0).price then e.avg_spread_sq
            else (1 - e.alpha) * e.avg_spread_sq +
              e.alpha * (((snapshot.asksAt 0).price - (snapshot.bidsAt 0).price) *
                ((snapshot.asksAt 0).price - (snapshot.bidsAt 0).price))
          avg_l1_vol := (1 - e.alpha) * e.avg_l1_vol +
            e.alpha * (((snapshot.bidsAt 0).volume + (snapshot.asksAt 0).volume) / 2)
          alpha := e.alpha } : AnalyticsEngine)) := by
  obtain ⟨h1, h2⟩ := hv
  unfold processSnapshot initialResult
  simp only [h1, h2, if_false]
  by_cases hc : (snapshot.asksAt 0).price ≤ (snapshot.bidsAt 0).price
  · simp only [hc, if_true]
    split_ifs <;> rfl
  · simp only [hc, if_false]
    split_ifs <;> rfl

theorem feed_cons_binary64 (e : AnalyticsEngine) (snapshot : Snapshot) (rest : List Snapshot) :
    feed e (snapshot :: rest) = feed (processSnapshot e snapshot).2 rest := rfl

/-! ### The end-to-end example in binary64 -/

/-- C2 as stated fails in binary64: on the fresh engine and the book with best
bid `(100.0, 10)`, best ask `(100.10, 10)` and mid price `100.05`, the returned
spread is not `0.10` and the engine's `avg_spread` after the call is not
`0.0525`. -/
theorem fresh_example_counterexample :
    (processSnapshot AnalyticsEngine.AnalyticsEngine specExample).1.spread ≠ 0.10 ∧
    (processSnapshot AnalyticsEngine.AnalyticsEngine specExample).2.avg_spread ≠ 0.0525 := by
  decide!

/-- C2 amended: the fresh engine, fed a snapshot with best bid `(100.0, 10)`,
best ask `(100.10, 10)` and mid price `100.05`, returns spread
`0.09999999999999432` (the binary64 difference `100.10 - 100.0`, within `1e-14`
of `0.10`), ofi 0, obi 0, microprice `100.05`, divergence 0, directional
probability 50 and regime 0 labelled "Calm", and its `avg_spread` becomes
`0.052499999999999714` (within `1e-15` of `0.0525`); the average is updated
before the regime comparison of the returned spread with twice the average,
which is false. -/
theorem fresh_example_binary64 (ts : Int) (bs as : List PriceLevel) :
    (processSnapshot AnalyticsEngine.AnalyticsEngine
        ⟨ts, 100.05, ⟨100.0, 10⟩ :: bs, ⟨100.10, 10⟩ :: as⟩).1 =
      { timestamp := ts
        mid_price := 100.05
        spread := 0.09999999999999432
        ofi := 0
        obi := 0
        microprice := 100.05
        divergence := 0
        directional_prob := 50.0
        regime := 0
        regime_label := "Calm"
        vpin := 0
        anomalies := [] } ∧
    (processSnapshot AnalyticsEngine.AnalyticsEngine
        ⟨ts, 100.05, ⟨100.0, 10⟩ :: bs, ⟨100.10, 10⟩ :: as⟩).2.avg_spread =
      0.052499999999999714 ∧
    ¬ ((0.09999999999999432 : Double) > 0.052499999999999714 * 2) ∧
    Double.abs (0.09999999999999432 - 0.10) < 1e-14 ∧
    Double.abs (0.052499999999999714 - 0.0525) < 1e-15 := by
  have hv : (⟨ts, 100.05, ⟨100.0, 10⟩ :: bs, ⟨100.10, 10⟩ :: as⟩ : Snapshot).accepted := by
    unfold Snapshot.accepted
    simp only [Snapshot.bids_size, Snapshot.asks_size, Snapshot.bidsAt, Snapshot.asksAt,
      List.length_cons, List.getD_cons_zero]
    constructor
    · omega
    · decide!
  rw [processSnapshot_of_accepted _ _ hv]
  simp only [Snapshot.bidsAt, Snapshot.asksAt, List.getD_cons_zero, ProcessedSnapshot.mk.injEq,
    true_and]
  decide!

/-- Instance of the amended C2 with one level per side. -/
theorem fresh_example_binary64_witness :
    (processSnapshot AnalyticsEngine.AnalyticsEngine specExample).1.spread =
      0.09999999999999432 ∧
    (processSnapshot AnalyticsEngine.AnalyticsEngine specExample).1.regime_label = "Calm" ∧
    (processSnapshot AnalyticsEngine.AnalyticsEngine specExample).2.avg_spread =
      0.052499999999999714 := by
  have h := fresh_example_binary64 0 [] []
  exact ⟨by rw [show specExample = ⟨0, 100.05, [⟨100.0, 10⟩], [⟨100.10, 10⟩]⟩ from rfl, h.1],
    by rw [show specExample = ⟨0, 100.05, [⟨100.0, 10⟩], [⟨100.10, 10⟩]⟩ from rfl, h.1],
    h.2.1⟩

/-! ### Values that are not finite pass the guards -/

/-- C5 at its failing input: the book whose best bid volume is `+infinity` is
not rejected, and the returned obi is NaN, which is neither `>= -1` nor
`<= 1`. -/
theorem obi_infinite_volume :
    infiniteVolumeTick.accepted ∧
    (processSnapshot AnalyticsEngine.AnalyticsEngine infiniteVolumeTick).1.obi = Double.nan ∧
    ¬ (-1 ≤ (processSnapshot AnalyticsEngine.AnalyticsEngine infiniteVolumeTick).1.obi) ∧
    ¬ ((processSnapshot AnalyticsEngine.AnalyticsEngine infiniteVolumeTick).1.obi ≤ 1) := by
  decide!

theorem mul_nan (x : Double) : x * Double.nan = Double.nan := by
  cases x <;> rfl

theorem nan_add (x : Double) : Double.nan + x = Double.nan := by
  cases x <;> rfl

theorem avg_spread_nan_processSnapshot (e : AnalyticsEngine) (snapshot : Snapshot)
    (h : e.avg_spread = Double.nan) : (processSnapshot e snapshot).2.avg_spread = Double.nan := by
  by_cases hv : snapshot.accepted
  · rw [processSnapshot_of_accepted e snapshot hv]
    show ite _ _ _ = _
    split_ifs
    · exact h
    · rw [h, mul_nan, nan_add]
  · rw [processSnapshot_of_not_accepted e snapshot hv]
    exact h

theorem avg_spread_nan_feed (e : AnalyticsEngine) (snapshots : List Snapshot)
    (h : e.avg_spread = Double.nan) : (feed e snapshots).avg_spread = Double.nan := by
  induction snapshots generalizing e with
  | nil => exact h
  | cons p rest ih =>
    rw [feed_cons_binary64]
    exact ih _ (avg_spread_nan_processSnapshot e p h)

/-- C17 at its failing input: the book whose best bid price is NaN is not
rejected; after it the fresh engine has `avg_spread`, `avg_spread_sq` and
`prev_best_bid` NaN, so `avg_spread > 0` fails and `prev_best_bid` is neither 0
nor positive while `prev_best_ask` is positive; and `avg_spread` stays NaN
whatever snapshots follow. -/
theorem nan_price_state :
    nanPriceTick.accepted ∧
    (feed AnalyticsEngine.AnalyticsEngine [nanPriceTick]).avg_spread = Double.nan ∧
    (feed AnalyticsEngine.AnalyticsEngine [nanPriceTick]).avg_spread_sq = Double.nan ∧
    (feed AnalyticsEngine.AnalyticsEngine [nanPriceTick]).prev_best_bid = Double.nan ∧
    ¬ (0 < (feed AnalyticsEngine.AnalyticsEngine [nanPriceTick]).avg_spread) ∧
    ¬ (0 < (feed AnalyticsEngine.AnalyticsEngine [nanPriceTick]).prev_best_bid) ∧
    (feed AnalyticsEngine.AnalyticsEngine [nanPriceTick]).prev_best_bid ≠ 0 ∧
    0 < (feed AnalyticsEngine.AnalyticsEngine [nanPriceTick]).prev_best_ask ∧
    (∀ later : List Snapshot,
      (feed AnalyticsEngine.AnalyticsEngine (nanPriceTick :: later)).avg_spread =
        Double.nan) := by
  refine ⟨by decide!, by decide!, by decide!, by decide!, by decide!, by decide!, by decide!,
    by decide!, fun later => ?_⟩
  rw [feed_cons_binary64]
  exact avg_spread_nan_feed _ later (by decide!)

end Binary64

/-! ## Rounding error of the binary64 operations -/

namespace Binary64

open Double (bits bitsAux roundShift round roundDiv toRat isFinite scaled)

theorem bitsAux_zero (fuel : Nat) : bitsAux fuel 0 = 0 := by
  cases fuel <;> rfl

theorem bitsAux_spec (fuel : Nat) : ∀ n : Nat, 0 < n → n < 2 ^ fuel →
    1 ≤ bitsAux fuel n ∧ 2 ^ (bitsAux fuel n - 1) ≤ n ∧ n < 2 ^ bitsAux fuel n := by
  induction fuel with
  | zero =>
    intro n h0 h1
    simp at h1
    omega
  | succ fuel ih =>
    intro n h0 h1
    have hne : n ≠ 0 := by omega
    have hstep : bitsAux (fuel + 1) n = bitsAux fuel (n / 2) + 1 := by
      simp [Double.bitsAux, hne]
    rw [hstep]
    by_cases h2 : n / 2 = 0
    · rw [h2, bitsAux_zero]
      have : n = 1 := by omega
      subst this
      simp
    · have hlt : n / 2 < 2 ^ fuel := by
        rw [pow_succ] at h1
        omega
      obtain ⟨hb1, hb2, hb3⟩ := ih (n / 2) (by omega) hlt
      refine ⟨by omega, ?_, ?_⟩
      · have e1 : bitsAux fuel (n / 2) + 1 - 1 = (bitsAux fuel (n / 2) - 1) + 1 := by omega
        rw [e1, pow_succ]
        omega
      · rw [pow_succ]
        omega

theorem bits_spec (n : Nat) (h : 0 < n) :
    1 ≤ bits n ∧ 2 ^ (bits n - 1) ≤ n ∧ n < 2 ^ bits n :=
  bitsAux_spec n n h (Nat.lt_two_pow n)

theorem roundShift_spec (m d : Nat) (hd : 1 ≤ d) :
    roundShift m d * 2 ^ d ≤ m + 2 ^ (d - 1) ∧ m ≤ roundShift m d * 2 ^ d + 2 ^ (d - 1) := by
  have hP : 2 ^ d = 2 * 2 ^ (d - 1) := by
    have : d = (d - 1) + 1 := by omega
    rw [this, pow_succ]
    simp
    ring
  have hdm := Nat.div_add_mod m (2 ^ d)
  have hr := Nat.mod_lt m (Nat.pos_pow_of_pos d (by norm_num) : 0 < 2 ^ d)
  unfold Double.roundShift
  simp only []
  generalize hq : m / 2 ^ d = q at *
  generalize hrr : m % 2 ^ d = r at *
  generalize hH : 2 ^ (d - 1) = H at *
  split_ifs with hc
  · have : (q + 1) * 2 ^ d = 2 ^ d * q + 2 ^ d := by ring
    rw [this]
    rcases hc with hc | ⟨hc, -⟩ <;> omega
  · have : q * 2 ^ d = 2 ^ d * q := by ring
    rw [this]
    have hle : r ≤ H := by
      by_contra hn
      exact hc (Or.inl (by omega))
    omega

theorem two_zpow_toNat (e x : Int) (h : x ≤ e) :
    ((2 : ℚ) ^ (e - x).toNat) * 2 ^ x = 2 ^ e := by
  rw [← zpow_natCast, Int.toNat_of_nonneg (sub_nonneg.2 h), ← zpow_add₀ (two_ne_zero)]
  congr 1
  ring

theorem toRat_zero : toRat Double.zero = 0 := by
  simp [toRat, Double.zero]

/-- Exponent bound: a value below `2^1023` has `e + bits m ≤ 1023`. -/
theorem exponent_bound (m : Nat) (e : Int) (hm : 0 < m)
    (hX : (m : ℚ) * 2 ^ e < 2 ^ (1023 : ℤ)) : e + (bits m : Int) ≤ 1023 := by
  obtain ⟨h1, h2, -⟩ := bits_spec m hm
  have hlow : (2 : ℚ) ^ (((bits m - 1 : Nat) : Int) + e) ≤ (m : ℚ) * 2 ^ e := by
    rw [zpow_add₀ (two_ne_zero), zpow_natCast]
    apply mul_le_mul_of_nonneg_right _ (by positivity)
    exact_mod_cast h2
  have hlt := lt_of_le_of_lt hlow hX
  have := (zpow_lt_zpow_iff_right₀ (by norm_num : (1 : ℚ) < 2)).1 hlt
  omega

/-- The shape of a rounded value: a natural multiple `q` of `2^et`, with `et`
the exponent of the last kept digit, `q * 2^et` equal to the input when no digit
is dropped and within half a unit of it otherwise. -/
theorem round_core (s : Bool) (m : Nat) (e : Int) (hm : 0 < m)
    (hX : (m : ℚ) * 2 ^ e < 2 ^ (1023 : ℤ)) :
    ∃ q : Nat, (round s m e).isFinite ∧
      (round s m e).toRat =
        (if s then -1 else 1) * ((q : ℚ) * 2 ^ (max (e + (bits m : Int) - 53) (-1074))) ∧
      (max (e + (bits m : Int) - 53) (-1074) ≤ e →
        (q : ℚ) * 2 ^ (max (e + (bits m : Int) - 53) (-1074)) = m * 2 ^ e) ∧
      (e < max (e + (bits m : Int) - 53) (-1074) →
        q * 2 ^ (max (e + (bits m : Int) - 53) (-1074) - e).toNat ≤
            m + 2 ^ ((max (e + (bits m : Int) - 53) (-1074) - e).toNat - 1) ∧
          m ≤ q * 2 ^ (max (e + (bits m : Int) - 53) (-1074) - e).toNat +
            2 ^ ((max (e + (bits m : Int) - 53) (-1074) - e).toNat - 1)) := by
  have hb := exponent_bound m e hm hX
  have het : max (e + (bits m : Int) - 53) (-1074) ≤ 970 := max_le (by omega) (by norm_num)
  unfold Double.round
  simp only [hm.ne', if_false]
  generalize max (e + (bits m : Int) - 53) (-1074) = et at het ⊢
  have h971 : ¬ et > 971 := by omega
  have h971' : ¬ et + 1 > 971 := by omega
  by_cases hle : et ≤ e
  · rw [if_pos hle, if_neg h971]
    refine ⟨m * 2 ^ (e - et).toNat, by simp [Double.isFinite], ?_, ?_, ?_⟩
    · simp only [toRat]
      ring
    · intro _
      push_cast
      rw [mul_assoc, two_zpow_toNat e et hle]
    · intro h
      omega
  · rw [if_neg hle]
    have hd : 1 ≤ (et - e).toNat := by omega
    obtain ⟨hs1, hs2⟩ := roundShift_spec m (et - e).toNat hd
    refine ⟨roundShift m (et - e).toNat, ?_, ?_, fun h => absurd h hle, fun _ => ⟨hs1, hs2⟩⟩
    · by_cases h0 : roundShift m (et - e).toNat = 0
      · rw [if_pos h0]
        simp [Double.isFinite, Double.zero]
      · rw [if_neg h0]
        by_cases h53 : roundShift m (et - e).toNat = 2 ^ 53
        · rw [if_pos h53, if_neg h971']
          simp [Double.isFinite]
        · rw [if_neg h53, if_neg h971]
          simp [Double.isFinite]
    · by_cases h0 : roundShift m (et - e).toNat = 0
      · rw [if_pos h0, toRat_zero, h0]
        simp
      · rw [if_neg h0]
        by_cases h53 : roundShift m (et - e).toNat = 2 ^ 53
        · rw [if_pos h53, if_neg h971', h53]
          simp only [toRat]
          push_cast
          rw [zpow_add₀ (two_ne_zero)]
          ring
        · rw [if_neg h53, if_neg h971]
          simp only [toRat]
          ring

/-- Half a unit in the last place is at most `2^-53` of the value, or
`2^-1075` for a subnormal result. -/
theorem half_ulp_le (m : Nat) (e : Int) (y : ℚ)
    (hy : (2 : ℚ) ^ (bits m - 1) ≤ y)
    (hlt : e < max (e + (bits m : Int) - 53) (-1074)) :
    (2 : ℚ) ^ ((max (e + (bits m : Int) - 53) (-1074) - e).toNat - 1) * 2 ^ e ≤
      2 ^ (-53 : ℤ) * (y * 2 ^ e) + 2 ^ (-1075 : ℤ) := by
  have hy0 : 0 ≤ y := le_trans (by positivity) hy
  have hpow : (2 : ℚ) ^ ((max (e + (bits m : Int) - 53) (-1074) - e).toNat - 1) * 2 ^ e =
      2 ^ (max (e + (bits m : Int) - 53) (-1074) - 1) := by
    rw [← zpow_natCast, ← zpow_add₀ (two_ne_zero)]
    congr 1
    omega
  rw [hpow]
  rcases max_cases (e + (bits m : Int) - 53) (-1074) with ⟨h1, -⟩ | ⟨h1, -⟩
  · rw [h1]
    have hsplit : (2 : ℚ) ^ (e + (bits m : Int) - 53 - 1) =
        2 ^ (-53 : ℤ) * ((2 : ℚ) ^ (bits m - 1) * 2 ^ e) := by
      rw [← zpow_natCast, ← zpow_add₀ (two_ne_zero), ← zpow_add₀ (two_ne_zero)]
      congr 1
      omega
    rw [hsplit]
    have h2 : (2 : ℚ) ^ (-53 : ℤ) * ((2 : ℚ) ^ (bits m - 1) * 2 ^ e) ≤
        2 ^ (-53 : ℤ) * (y * 2 ^ e) :=
      mul_le_mul_of_nonneg_left (mul_le_mul_of_nonneg_right hy (by positivity)) (by positivity)
    have h3 : (0 : ℚ) ≤ 2 ^ (-1075 : ℤ) := by positivity
    linarith
  · rw [h1]
    have h2 : (0 : ℚ) ≤ 2 ^ (-53 : ℤ) * (y * 2 ^ e) := by positivity
    have h3 : (2 : ℚ) ^ ((-1074 : ℤ) - 1) = 2 ^ (-1075 : ℤ) := by norm_num
    rw [h3]
    linarith

/-- Rounding error: a value below `2^1023` rounds to a finite value within
`2^-53` of it in relative terms, or within `2^-1075`. -/
theorem round_spec (s : Bool) (m : Nat) (e : Int) (hX : (m : ℚ) * 2 ^ e < 2 ^ (1023 : ℤ)) :
    (round s m e).isFinite ∧
      |(round s m e).toRat - (if s then -1 else 1) * ((m : ℚ) * 2 ^ e)| ≤
        2 ^ (-53 : ℤ) * ((m : ℚ) * 2 ^ e) + 2 ^ (-1075 : ℤ) := by
  rcases Nat.eq_zero_or_pos m with hm | hm
  · subst hm
    have hz : round s 0 e = Double.zero := by simp [Double.round]
    rw [hz, toRat_zero]
    refine ⟨by simp [Double.isFinite, Double.zero], ?_⟩
    simp
    positivity
  · obtain ⟨q, hfin, hval, hexact, hhalf⟩ := round_core s m e hm hX
    obtain ⟨hb1, hb2, -⟩ := bits_spec m hm
    refine ⟨hfin, ?_⟩
    rw [hval, ← mul_sub, abs_mul]
    have hsgn : |(if s then (-1 : ℚ) else 1)| = 1 := by
      split_ifs <;> simp
    rw [hsgn, one_mul]
    by_cases hle : max (e + (bits m : Int) - 53) (-1074) ≤ e
    · rw [hexact hle, sub_self, abs_zero]
      positivity
    · have hlt := not_le.1 hle
      obtain ⟨h1, h2⟩ := hhalf hlt
      have hull := half_ulp_le m e m (by exact_mod_cast hb2) hlt
      have hz := two_zpow_toNat (max (e + (bits m : Int) - 53) (-1074)) e hlt.le
      generalize max (e + (bits m : Int) - 53) (-1074) = et at *
      generalize hd : (et - e).toNat = d at *
      have h1' : (q : ℚ) * 2 ^ d ≤ m + 2 ^ (d - 1) := by exact_mod_cast h1
      have h2' : (m : ℚ) ≤ q * 2 ^ d + 2 ^ (d - 1) := by exact_mod_cast h2
      have hpe : (0 : ℚ) < 2 ^ e := by positivity
      rw [← hz]
      have hkey : |(q : ℚ) * (2 ^ d * 2 ^ e) - m * 2 ^ e| ≤ 2 ^ (d - 1) * 2 ^ e := by
        rw [show (q : ℚ) * (2 ^ d * 2 ^ e) - m * 2 ^ e = (q * 2 ^ d - m) * 2 ^ e by ring,
          abs_mul, abs_of_pos hpe]
        apply mul_le_mul_of_nonneg_right _ hpe.le
        rw [abs_le]
        constructor <;> linarith
      linarith

theorem natAbs_cast_abs (c : Int) : (c.natAbs : ℚ) = |(c : ℚ)| := by
  rw [Nat.cast_natAbs, Int.cast_abs]

theorem sign_mul_natAbs (c : Int) :
    (if decide (c < 0) = true then (-1 : ℚ) else 1) * (c.natAbs : ℚ) = (c : ℚ) := by
  rw [natAbs_cast_abs]
  by_cases h : c < 0
  · have hq : (c : ℚ) < 0 := by exact_mod_cast h
    rw [abs_of_neg hq]
    simp [h]
  · have hq : (0 : ℚ) ≤ c := by exact_mod_cast (not_lt.1 h)
    rw [abs_of_nonneg hq]
    simp [h]

theorem scaled_toRat (s : Bool) (m : Nat) (e x : Int) (h : x ≤ e) :
    ((scaled s m e x : Int) : ℚ) * 2 ^ x = (Double.fin s m e).toRat := by
  unfold Double.scaled Double.toRat
  push_cast
  have := two_zpow_toNat e x h
  cases s <;> simp <;> linear_combination (m : ℚ) * this

/-- Rounding error of a product. -/
theorem mul_spec (x y : Double) (hx : x.isFinite) (hy : y.isFinite)
    (hX : |x.toRat * y.toRat| < 2 ^ (1023 : ℤ)) :
    (x * y).isFinite ∧
      |(x * y).toRat - x.toRat * y.toRat| ≤
        2 ^ (-53 : ℤ) * |x.toRat * y.toRat| + 2 ^ (-1075 : ℤ) := by
  cases x with
  | nan => exact absurd hx (by simp [Double.isFinite])
  | inf s => exact absurd hx (by simp [Double.isFinite])
  | fin s m e =>
    cases y with
    | nan => exact absurd hy (by simp [Double.isFinite])
    | inf t => exact absurd hy (by simp [Double.isFinite])
    | fin t n f =>
      have hprod : (Double.fin s m e).toRat * (Double.fin t n f).toRat =
          (if xor s t then -1 else 1) * (((m * n : Nat) : ℚ) * 2 ^ (e + f)) := by
        simp only [toRat]
        rw [zpow_add₀ (two_ne_zero)]
        push_cast
        cases s <;> cases t <;> simp <;> ring
      have habs : |(Double.fin s m e).toRat * (Double.fin t n f).toRat| =
          ((m * n : Nat) : ℚ) * 2 ^ (e + f) := by
        rw [hprod, abs_mul]
        have hsgn : |(if xor s t then (-1 : ℚ) else 1)| = 1 := by
          split_ifs <;> simp
        rw [hsgn, one_mul, abs_of_nonneg (by positivity)]
      rw [habs] at hX ⊢
      have h := round_spec (xor s t) (m * n) (e + f) hX
      rw [hprod]
      exact h

/-- Rounding error of a sum. -/
theorem add_spec (x y : Double) (hx : x.isFinite) (hy : y.isFinite)
    (hX : |x.toRat + y.toRat| < 2 ^ (1023 : ℤ)) :
    (x + y).isFinite ∧
      |(x + y).toRat - (x.toRat + y.toRat)| ≤
        2 ^ (-53 : ℤ) * |x.toRat + y.toRat| + 2 ^ (-1075 : ℤ) := by
  cases x with
  | nan => exact absurd hx (by simp [Double.isFinite])
  | inf s => exact absurd hx (by simp [Double.isFinite])
  | fin s m e =>
    cases y with
    | nan => exact absurd hy (by simp [Double.isFinite])
    | inf t => exact absurd hy (by simp [Double.isFinite])
    | fin t n f =>
      have hsum : (Double.fin s m e).toRat + (Double.fin t n f).toRat =
          ((scaled s m e (min e f) + scaled t n f (min e f) : Int) : ℚ) * 2 ^ (min e f) := by
        push_cast
        rw [add_mul, scaled_toRat s m e _ (min_le_left e f),
          scaled_toRat t n f _ (min_le_right e f)]
      generalize hc : scaled s m e (min e f) + scaled t n f (min e f) = c at hsum
      have hval : (if decide (c < 0) = true then (-1 : ℚ) else 1) *
          ((c.natAbs : ℚ) * 2 ^ (min e f)) =
          (Double.fin s m e).toRat + (Double.fin t n f).toRat := by
        rw [← mul_assoc, sign_mul_natAbs, hsum]
      have habs : |(Double.fin s m e).toRat + (Double.fin t n f).toRat| =
          (c.natAbs : ℚ) * 2 ^ (min e f) := by
        rw [hsum, abs_mul, natAbs_cast_abs, abs_of_pos (by positivity : (0 : ℚ) < 2 ^ (min e f))]
      rw [habs] at hX ⊢
      have h := round_spec (decide (c < 0)) c.natAbs (min e f) hX
      rw [← hval]
      have hdef : Double.fin s m e + Double.fin t n f =
          round (decide (c < 0)) c.natAbs (min e f) := by
        rw [← hc]
        rfl
      rw [hdef]
      exact h

theorem neg_finite (y : Double) (hy : y.isFinite) : (-y).isFinite := by
  cases y with
  | nan => exact absurd hy (by simp [Double.isFinite])
  | inf t => exact absurd hy (by simp [Double.isFinite])
  | fin t n f =>
    show (Double.neg (Double.fin t n f)).isFinite
    simp only [Double.neg]
    split_ifs <;> simp [Double.isFinite, Double.zero]

theorem neg_toRat (y : Double) (hy : y.isFinite) : (-y).toRat = - y.toRat := by
  cases y with
  | nan => exact absurd hy (by simp [Double.isFinite])
  | inf t => exact absurd hy (by simp [Double.isFinite])
  | fin t n f =>
    show (Double.neg (Double.fin t n f)).toRat = _
    simp only [Double.neg]
    split_ifs with h0
    · subst h0
      simp [toRat, Double.zero]
    · cases t <;> simp [toRat]

/-- Rounding error of a difference. -/
theorem sub_spec (x y : Double) (hx : x.isFinite) (hy : y.isFinite)
    (hX : |x.toRat - y.toRat| < 2 ^ (1023 : ℤ)) :
    (x - y).isFinite ∧
      |(x - y).toRat - (x.toRat - y.toRat)| ≤
        2 ^ (-53 : ℤ) * |x.toRat - y.toRat| + 2 ^ (-1075 : ℤ) := by
  have h := add_spec x (-y) hx (neg_finite y hy) (by rw [neg_toRat y hy, ← sub_eq_add_neg]; exact hX)
  rw [neg_toRat y hy, ← sub_eq_add_neg] at h
  exact h

/-- On finite values `<` is the order of the values. -/
theorem lt_iff_toRat (x y : Double) (hx : x.isFinite) (hy : y.isFinite) :
    x < y ↔ x.toRat < y.toRat := by
  cases x with
  | nan => exact absurd hx (by simp [Double.isFinite])
  | inf s => exact absurd hx (by simp [Double.isFinite])
  | fin s m e =>
    cases y with
    | nan => exact absurd hy (by simp [Double.isFinite])
    | inf t => exact absurd hy (by simp [Double.isFinite])
    | fin t n f =>
      show Double.lt (Double.fin s m e) (Double.fin t n f) = true ↔ _
      unfold Double.lt
      rw [decide_eq_true_iff, ← scaled_toRat s m e _ (min_le_left e f),
        ← scaled_toRat t n f _ (min_le_right e f)]
      rw [mul_lt_mul_right (by positivity : (0 : ℚ) < 2 ^ (min e f))]
      exact Int.cast_lt.symm

/-- On finite values `<=` is the order of the values. -/
theorem le_iff_toRat (x y : Double) (hx : x.isFinite) (hy : y.isFinite) :
    x ≤ y ↔ x.toRat ≤ y.toRat := by
  cases x with
  | nan => exact absurd hx (by simp [Double.isFinite])
  | inf s => exact absurd hx (by simp [Double.isFinite])
  | fin s m e =>
    cases y with
    | nan => exact absurd hy (by simp [Double.isFinite])
    | inf t => exact absurd hy (by simp [Double.isFinite])
    | fin t n f =>
      show Double.le (Double.fin s m e) (Double.fin t n f) = true ↔ _
      unfold Double.le
      rw [decide_eq_true_iff, ← scaled_toRat s m e _ (min_le_left e f),
        ← scaled_toRat t n f _ (min_le_right e f)]
      rw [mul_le_mul_right (by positivity : (0 : ℚ) < 2 ^ (min e f))]
      exact Int.cast_le.symm

end Binary64

namespace Binary64

open Double (bits bitsAux roundShift round roundDiv toRat isFinite scaled)

/-- Rounding error of a quotient of naturals scaled by a power of two. -/
theorem roundDiv_spec (s : Bool) (a b : Nat) (E : Int) (hb : 0 < b)
    (hV : (a : ℚ) / b * 2 ^ E < 2 ^ (1022 : ℤ)) :
    (roundDiv s a b E).isFinite ∧
      |(roundDiv s a b E).toRat - (if s then -1 else 1) * ((a : ℚ) / b * 2 ^ E)| ≤
        2 ^ (-53 : ℤ) * ((a : ℚ) / b * 2 ^ E) + 2 ^ (-1075 : ℤ) := by
  unfold Double.roundDiv
  simp only []
  obtain ⟨-, -, hbb⟩ := bits_spec b hb
  generalize hk : 64 + bits b = k at *
  have hdm := Nat.div_add_mod (a * 2 ^ k) b
  have hR := Nat.mod_lt (a * 2 ^ k) hb
  generalize a * 2 ^ k / b = Q at *
  generalize a * 2 ^ k % b = R at *
  have hbq : (0 : ℚ) < b := by exact_mod_cast hb
  have hcast : (a : ℚ) * 2 ^ k = b * Q + R := by exact_mod_cast hdm.symm
  have hz : (2 : ℚ) ^ E = 2 ^ (E - (k : Int) - 1) * (2 ^ k * 2) := by
    rw [← zpow_natCast, ← zpow_add_one₀ (two_ne_zero), ← zpow_add₀ (two_ne_zero)]
    congr 1
    ring
  have hVeq : (a : ℚ) / b * 2 ^ E = (2 * Q + 2 * R / b) * 2 ^ (E - (k : Int) - 1) := by
    rw [hz]
    field_simp
    linear_combination (2 : ℚ) * (2 : ℚ) ^ (E - (k : Int) - 1) * hcast
  generalize E - (k : Int) - 1 = e' at *
  have hpe : (0 : ℚ) < 2 ^ e' := by positivity
  by_cases hR0 : R = 0
  · rw [if_pos hR0]
    have hVM : (a : ℚ) / b * 2 ^ E = ((2 * Q + 0 : Nat) : ℚ) * 2 ^ e' := by
      rw [hVeq, hR0]
      push_cast
      ring
    rw [hVM] at hV ⊢
    exact round_spec s (2 * Q + 0) e'
      (lt_trans hV (zpow_lt_zpow_right₀ (by norm_num) (by norm_num)))
  · rw [if_neg hR0]
    have hRpos : 0 < R := Nat.pos_of_ne_zero hR0
    have hapos : 0 < a := by
      rcases Nat.eq_zero_or_pos a with h | h
      · subst h
        have : b * Q + R = 0 := by simpa using hdm
        have : R = 0 := by
          have := Nat.le_add_left R (b * Q)
          omega
        exact absurd this hR0
      · exact h
    have hQ : 2 ^ 64 ≤ Q := by
      by_contra hlt
      have h1 : Q + 1 ≤ 2 ^ 64 := by omega
      have h2 : b * (Q + 1) ≤ b * 2 ^ 64 := Nat.mul_le_mul_left b h1
      have h3 : 2 ^ k ≤ a * 2 ^ k := Nat.le_mul_of_pos_left _ hapos
      have h4 : 2 ^ k = 2 ^ 64 * 2 ^ bits b := by rw [← hk, pow_add]
      have h5 : b * 2 ^ 64 < 2 ^ 64 * 2 ^ bits b := by
        rw [mul_comm]
        exact Nat.mul_lt_mul_of_pos_left hbb (by norm_num)
      have h6 : b * (Q + 1) = b * Q + b := by ring
      omega
    have hM : 0 < 2 * Q + 1 := by omega
    obtain ⟨-, hm2, hm3⟩ := bits_spec (2 * Q + 1) hM
    have hbM : 66 ≤ bits (2 * Q + 1) := by
      by_contra hlt
      have h1 : bits (2 * Q + 1) ≤ 65 := by omega
      have h2 : 2 ^ bits (2 * Q + 1) ≤ 2 ^ 65 := Nat.pow_le_pow_right (by norm_num) h1
      have h3 : (2 : Nat) ^ 65 = 2 * 2 ^ 64 := by norm_num
      omega
    -- the exact quotient, in units of the last digit of the dividend
    have hvlo : (2 * Q : ℚ) < 2 * Q + 2 * R / b := by
      have : (0 : ℚ) < 2 * R / b := by
        have : (0 : ℚ) < R := by exact_mod_cast hRpos
        positivity
      linarith
    have hvhi : (2 * Q + 2 * R / b : ℚ) < 2 * Q + 2 := by
      have : (2 * R / b : ℚ) < 2 := by
        rw [div_lt_iff₀ hbq]
        have : (R : ℚ) < b := by exact_mod_cast hR
        linarith
      linarith
    generalize hv : (2 * Q + 2 * R / b : ℚ) = v at *
    have hQq : (2 : ℚ) ^ 64 ≤ Q := by exact_mod_cast hQ
    have hX' : ((2 * Q + 1 : Nat) : ℚ) * 2 ^ e' < 2 ^ (1023 : ℤ) := by
      have h1 : ((2 * Q + 1 : Nat) : ℚ) ≤ 2 * v := by
        push_cast
        linarith
      have h2 : ((2 * Q + 1 : Nat) : ℚ) * 2 ^ e' ≤ 2 * v * 2 ^ e' :=
        mul_le_mul_of_nonneg_right h1 hpe.le
      have h3 : (2 : ℚ) ^ (1023 : ℤ) = 2 * 2 ^ (1022 : ℤ) := by norm_num
      rw [hVeq] at hV
      linarith
    obtain ⟨q, hfin, hval, -, hhalf⟩ := round_core s (2 * Q + 1) e' hM hX'
    have hlt : e' < max (e' + (bits (2 * Q + 1) : Int) - 53) (-1074) :=
      lt_of_lt_of_le (by omega) (le_max_left _ _)
    obtain ⟨h1, h2⟩ := hhalf hlt
    have hy : (2 : ℚ) ^ (bits (2 * Q + 1) - 1) ≤ v := by
      have e1 : bits (2 * Q + 1) - 1 = (bits (2 * Q + 1) - 2) + 1 := by omega
      rw [e1, pow_succ] at hm2
      have h3 : 2 ^ (bits (2 * Q + 1) - 2) * 2 ≤ 2 * Q := by omega
      have h4 : ((2 : ℚ) ^ (bits (2 * Q + 1) - 2) * 2) ≤ 2 * Q := by exact_mod_cast h3
      rw [e1, pow_succ]
      linarith
    have hull := half_ulp_le (2 * Q + 1) e' v hy hlt
    have hz2 := two_zpow_toNat (max (e' + (bits (2 * Q + 1) : Int) - 53) (-1074)) e' hlt.le
    have hd13 : 2 ≤ (max (e' + (bits (2 * Q + 1) : Int) - 53) (-1074) - e').toNat := by
      have := le_max_left (e' + (bits (2 * Q + 1) : Int) - 53) (-1074)
      omega
    generalize max (e' + (bits (2 * Q + 1) : Int) - 53) (-1074) = et at *
    generalize (et - e').toNat = d at *
    have hp1 : 2 ^ d = 4 * 2 ^ (d - 2) := by
      have : d = (d - 2) + 2 := by omega
      rw [this, pow_add]
      simp
      ring
    have hp2 : 2 ^ (d - 1) = 2 * 2 ^ (d - 2) := by
      have : d - 1 = (d - 2) + 1 := by omega
      rw [this, pow_succ]
      ring
    have hn1 : q * 2 ^ d ≤ 2 * Q + 2 ^ (d - 1) := by
      rw [hp2] at h1 ⊢
      rw [hp1] at h1 ⊢
      have : q * (4 * 2 ^ (d - 2)) = 4 * (q * 2 ^ (d - 2)) := by ring
      rw [this] at h1 ⊢
      omega
    have hn2 : 2 * Q + 2 ≤ q * 2 ^ d + 2 ^ (d - 1) := by
      rw [hp2] at h2 ⊢
      rw [hp1] at h2 ⊢
      have : q * (4 * 2 ^ (d - 2)) = 4 * (q * 2 ^ (d - 2)) := by ring
      rw [this] at h2 ⊢
      omega
    have hq1 : (q : ℚ) * 2 ^ d ≤ 2 * Q + 2 ^ (d - 1) := by exact_mod_cast hn1
    have hq2 : (2 * Q + 2 : ℚ) ≤ q * 2 ^ d + 2 ^ (d - 1) := by exact_mod_cast hn2
    refine ⟨hfin, ?_⟩
    rw [hval, hVeq, ← mul_sub, abs_mul]
    have hsgn : |(if s then (-1 : ℚ) else 1)| = 1 := by
      split_ifs <;> simp
    rw [hsgn, one_mul, ← hz2]
    have hkey : |(q : ℚ) * (2 ^ d * 2 ^ e') - v * 2 ^ e'| ≤ 2 ^ (d - 1) * 2 ^ e' := by
      rw [show (q : ℚ) * (2 ^ d * 2 ^ e') - v * 2 ^ e' = (q * 2 ^ d - v) * 2 ^ e' by ring,
        abs_mul, abs_of_pos hpe]
      apply mul_le_mul_of_nonneg_right _ hpe.le
      rw [abs_le]
      constructor <;> linarith
    linarith

/-- Rounding error of a quotient. -/
theorem div_spec (x y : Double) (hx : x.isFinite) (hy : y.isFinite) (hy0 : y.toRat ≠ 0)
    (hX : |x.toRat / y.toRat| < 2 ^ (1022 : ℤ)) :
    (x / y).isFinite ∧
      |(x / y).toRat - x.toRat / y.toRat| ≤
        2 ^ (-53 : ℤ) * |x.toRat / y.toRat| + 2 ^ (-1075 : ℤ) := by
  cases x with
  | nan => exact absurd hx (by simp [Double.isFinite])
  | inf s => exact absurd hx (by simp [Double.isFinite])
  | fin s m e =>
    cases y with
    | nan => exact absurd hy (by simp [Double.isFinite])
    | inf t => exact absurd hy (by simp [Double.isFinite])
    | fin t n f =>
      have hn : n ≠ 0 := by
        rintro rfl
        exact hy0 (by simp [toRat])
      have hnq : (n : ℚ) ≠ 0 := by exact_mod_cast hn
      have hquot : (Double.fin s m e).toRat / (Double.fin t n f).toRat =
          (if xor s t then -1 else 1) * ((m : ℚ) / n * 2 ^ (e - f)) := by
        simp only [toRat]
        rw [zpow_sub₀ (two_ne_zero)]
        have h2 : (2 : ℚ) ^ f ≠ 0 := by positivity
        cases s <;> cases t <;> simp <;> field_simp
      have habs : |(Double.fin s m e).toRat / (Double.fin t n f).toRat| =
          (m : ℚ) / n * 2 ^ (e - f) := by
        rw [hquot, abs_mul]
        have hsgn : |(if xor s t then (-1 : ℚ) else 1)| = 1 := by
          split_ifs <;> simp
        rw [hsgn, one_mul, abs_of_nonneg (by positivity)]
      rw [habs] at hX ⊢
      have h := roundDiv_spec (xor s t) m n (e - f) (Nat.pos_of_ne_zero hn) hX
      rw [hquot]
      have hdef : Double.fin s m e / Double.fin t n f = roundDiv (xor s t) m n (e - f) := by
        show Double.div _ _ = _
        simp only [Double.div, hn, if_false]
      rw [hdef]
      exact h

end Binary64

/-! ## The regime threshold in binary64 -/

namespace Binary64

open Double (toRat isFinite)

theorem alpha_value : (0.05 : Double) = Double.fin false 7205759403792794 (-57) := by decide!

theorem one_sub_alpha_value :
    (1 : Double) - 0.05 = Double.fin false 8556839292003942 (-53) := by decide!

theorem two_value : (2 : Double) = Double.fin false 4503599627370496 (-51) := by decide!

theorem toRat_alpha : (0.05 : Double).toRat = 7205759403792794 / 2 ^ 57 := by
  rw [alpha_value]
  simp only [toRat]
  norm_num

theorem toRat_one_sub_alpha : ((1 : Double) - 0.05).toRat = 8556839292003942 / 2 ^ 53 := by
  rw [one_sub_alpha_value]
  simp only [toRat]
  norm_num

theorem toRat_two : (2 : Double).toRat = 2 := by
  rw [two_value]
  simp only [toRat]
  norm_num

theorem finite_fin (s : Bool) (m : Nat) (e : Int) : (Double.fin s m e).isFinite := by
  simp [Double.isFinite]

/-- The updated average `(1 - 0.05) * a + 0.05 * sp`, doubled, against its
value in exact arithmetic. -/
theorem doubled_average_bounds (a sp : Double) (ha : a.isFinite) (hsp : sp.isFinite)
    (hA1 : 2 ^ (-1000 : ℤ) ≤ a.toRat) (hA2 : a.toRat ≤ 2 ^ (1000 : ℤ))
    (hS1 : 0 < sp.toRat) (hS2 : sp.toRat ≤ 2 ^ (1000 : ℤ)) :
    ((((1 : Double) - 0.05) * a + 0.05 * sp) * 2).isFinite ∧
    ((((1 : Double) - 0.05) * a + 0.05 * sp) * 2).toRat ≤
      (19 / 10 * a.toRat + 1 / 10 * sp.toRat) * (1 + 2 ^ (-51 : ℤ)) ∧
    (19 / 10 * a.toRat + 1 / 10 * sp.toRat) * (1 - 2 ^ (-51 : ℤ)) ≤
      ((((1 : Double) - 0.05) * a + 0.05 * sp) * 2).toRat := by
  have hc : ((1 : Double) - 0.05).isFinite := by
    rw [one_sub_alpha_value]; exact finite_fin _ _ _
  have hal : (0.05 : Double).isFinite := by
    rw [alpha_value]; exact finite_fin _ _ _
  have h2f : (2 : Double).isFinite := by
    rw [two_value]; exact finite_fin _ _ _
  have hbig : (2 : ℚ) ^ (1000 : ℤ) * 4 < 2 ^ (1023 : ℤ) := by norm_num
  have ht : (2 : ℚ) ^ (-1075 : ℤ) = 2 ^ (-75 : ℤ) * 2 ^ (-1000 : ℤ) := by
    rw [← zpow_add₀ (two_ne_zero)]; norm_num
  have htA : (2 : ℚ) ^ (-1075 : ℤ) ≤ 2 ^ (-75 : ℤ) * a.toRat := by
    rw [ht]
    exact mul_le_mul_of_nonneg_left hA1 (by positivity)
  have hu : (2 : ℚ) ^ (-53 : ℤ) = 1 / 9007199254740992 := by norm_num
  have hu51 : (2 : ℚ) ^ (-51 : ℤ) = 1 / 2251799813685248 := by norm_num
  have hu75 : (2 : ℚ) ^ (-75 : ℤ) = 1 / 37778931862957161709568 := by norm_num
  have hApos : 0 < a.toRat := lt_of_lt_of_le (by positivity) hA1
  obtain ⟨t, htdef⟩ : ∃ t : ℚ, (2 : ℚ) ^ (-1075 : ℤ) = t := ⟨_, rfl⟩
  rw [htdef] at htA
  clear ht
  generalize (2 : ℚ) ^ (1000 : ℤ) = B at *
  rw [hu75] at htA
  have hCA : |((1 : Double) - 0.05).toRat * a.toRat| =
      8556839292003942 / 2 ^ 53 * a.toRat := by
    rw [toRat_one_sub_alpha, abs_mul, abs_of_pos hApos, abs_of_pos (by norm_num)]
  have hαS : |(0.05 : Double).toRat * sp.toRat| = 7205759403792794 / 2 ^ 57 * sp.toRat := by
    rw [toRat_alpha, abs_mul, abs_of_pos hS1, abs_of_pos (by norm_num)]
  -- the two products
  obtain ⟨hf1, hp1⟩ := mul_spec ((1 : Double) - 0.05) a hc ha (by rw [hCA]; linarith)
  obtain ⟨hf2, hp2⟩ := mul_spec (0.05 : Double) sp hal hsp (by rw [hαS]; linarith)
  rw [hCA, toRat_one_sub_alpha, hu, htdef, abs_le] at hp1
  rw [hαS, toRat_alpha, hu, htdef, abs_le] at hp2
  obtain ⟨hp1l, hp1u⟩ := hp1
  obtain ⟨hp2l, hp2u⟩ := hp2
  generalize (((1 : Double) - 0.05) * a) = P1 at *
  generalize ((0.05 : Double) * sp) = P2 at *
  -- their sum
  have hsumpos : 0 < P1.toRat + P2.toRat := by linarith
  obtain ⟨hf3, hp3⟩ := add_spec P1 P2 hf1 hf2 (by rw [abs_of_pos hsumpos]; linarith)
  rw [abs_of_pos hsumpos, hu, htdef, abs_le] at hp3
  obtain ⟨hp3l, hp3u⟩ := hp3
  generalize (P1 + P2) = Sm at *
  -- doubled
  have hSmpos : 0 < Sm.toRat := by linarith
  have h2Sm : |Sm.toRat * (2 : Double).toRat| = 2 * Sm.toRat := by
    rw [toRat_two, abs_of_pos (by linarith)]
    ring
  obtain ⟨hf4, hp4⟩ := mul_spec Sm 2 hf3 h2f (by rw [h2Sm]; linarith)
  rw [h2Sm, toRat_two, hu, htdef, abs_le] at hp4
  obtain ⟨hp4l, hp4u⟩ := hp4
  refine ⟨hf4, ?_, ?_⟩
  · rw [hu51]
    linarith
  · rw [hu51]
    linarith

theorem spread_of_uncrossed (e : AnalyticsEngine) (snapshot : Snapshot)
    (hv : snapshot.accepted) (hs : ¬ (snapshot.asksAt 0).price ≤ (snapshot.bidsAt 0).price) :
    (processSnapshot e snapshot).1.spread =
      (snapshot.asksAt 0).price - (snapshot.bidsAt 0).price := by
  rw [processSnapshot_of_accepted e snapshot hv]
  exact if_neg hs

theorem regime_of_uncrossed (e : AnalyticsEngine) (snapshot : Snapshot)
    (hv : snapshot.accepted) (hs : ¬ (snapshot.asksAt 0).price ≤ (snapshot.bidsAt 0).price) :
    ((processSnapshot e snapshot).1.regime =
        if (processSnapshot e snapshot).1.spread >
          ((1 - e.alpha) * e.avg_spread +
            e.alpha * (processSnapshot e snapshot).1.spread) * 2 then 1 else 0) ∧
    ((processSnapshot e snapshot).1.regime_label =
        if (processSnapshot e snapshot).1.spread >
          ((1 - e.alpha) * e.avg_spread +
            e.alpha * (processSnapshot e snapshot).1.spread) * 2 then "Stressed" else "Calm") := by
  rw [processSnapshot_of_accepted e snapshot hv]
  constructor <;> simp only [hs, if_false]

/-- C18 as stated fails in binary64: after nine calls on the book of spread 1,
the book with bid `0.847110906052311` and ask `1.694221812104622` has
`9 * s = 19 * a` exactly, `s` the returned spread and `a` the `avg_spread`
before the call, and yet the result is regime 1 labelled "Stressed". -/
theorem regime_threshold_counterexample :
    (feed AnalyticsEngine.AnalyticsEngine (List.replicate 9 unitTick)).alpha = 0.05 ∧
    boundaryTick.accepted ∧
    (boundaryTick.bidsAt 0).price < (boundaryTick.asksAt 0).price ∧
    9 * (processSnapshot (feed AnalyticsEngine.AnalyticsEngine (List.replicate 9 unitTick))
        boundaryTick).1.spread.toRat =
      19 * (feed AnalyticsEngine.AnalyticsEngine (List.replicate 9 unitTick)).avg_spread.toRat ∧
    (processSnapshot (feed AnalyticsEngine.AnalyticsEngine (List.replicate 9 unitTick))
        boundaryTick).1.regime = 1 ∧
    (processSnapshot (feed AnalyticsEngine.AnalyticsEngine (List.replicate 9 unitTick))
        boundaryTick).1.regime_label = "Stressed" := by
  have hs : (processSnapshot (feed AnalyticsEngine.AnalyticsEngine (List.replicate 9 unitTick))
      boundaryTick).1.spread = Double.fin false 7630096721677342 (-53) := by decide!
  have ha : (feed AnalyticsEngine.AnalyticsEngine (List.replicate 9 unitTick)).avg_spread =
      Double.fin false 7228512683694324 (-54) := by decide!
  refine ⟨by decide!, by decide!, by decide!, ?_, by decide!, by decide!⟩
  rw [hs, ha]
  simp only [toRat]
  norm_num

/-- C18 amended: on a snapshot that is not rejected, with best ask price not
`<=` best bid price, an engine with `alpha = 0.05`, a finite `avg_spread` of
value `a` with `2^-1000 ≤ a ≤ 2^1000` before the call and a finite returned
spread of value `s` with `0 < s ≤ 2^1000`: the result has regime 1 labelled
"Stressed" if `9 * s > 19 * a * (1 + 2^-50)` and regime 0 labelled "Calm" if
`9 * s < 19 * a * (1 - 2^-50)`; so the threshold against the earlier average is
`19 / 9` up to a relative `2^-50`, and a spread with
`2 * a < s < (19 / 9) * a * (1 - 2^-50)` is "Calm". -/
theorem regime_threshold_binary64 (e : AnalyticsEngine) (snapshot : Snapshot)
    (hv : snapshot.accepted) (hs : ¬ (snapshot.asksAt 0).price ≤ (snapshot.bidsAt 0).price)
    (hα : e.alpha = 0.05)
    (ha : e.avg_spread.isFinite)
    (hA1 : 2 ^ (-1000 : ℤ) ≤ e.avg_spread.toRat) (hA2 : e.avg_spread.toRat ≤ 2 ^ (1000 : ℤ))
    (hsf : (processSnapshot e snapshot).1.spread.isFinite)
    (hS1 : 0 < (processSnapshot e snapshot).1.spread.toRat)
    (hS2 : (processSnapshot e snapshot).1.spread.toRat ≤ 2 ^ (1000 : ℤ)) :
    (9 * (processSnapshot e snapshot).1.spread.toRat >
        19 * e.avg_spread.toRat * (1 + 2 ^ (-50 : ℤ)) →
      (processSnapshot e snapshot).1.regime = 1 ∧
        (processSnapshot e snapshot).1.regime_label = "Stressed") ∧
    (9 * (processSnapshot e snapshot).1.spread.toRat <
        19 * e.avg_spread.toRat * (1 - 2 ^ (-50 : ℤ)) →
      (processSnapshot e snapshot).1.regime = 0 ∧
        (processSnapshot e snapshot).1.regime_label = "Calm") ∧
    (2 * e.avg_spread.toRat < (processSnapshot e snapshot).1.spread.toRat ∧
        (processSnapshot e snapshot).1.spread.toRat <
          19 / 9 * e.avg_spread.toRat * (1 - 2 ^ (-50 : ℤ)) →
      (processSnapshot e snapshot).1.regime = 0 ∧
        (processSnapshot e snapshot).1.regime_label = "Calm") := by
  obtain ⟨hreg, hlab⟩ := regime_of_uncrossed e snapshot hv hs
  rw [hreg, hlab, hα]
  clear hreg hlab hs hv
  generalize (processSnapshot e snapshot).1.spread = sp at *
  obtain ⟨hDf, hDu, hDl⟩ := doubled_average_bounds e.avg_spread sp ha hsf hA1 hA2 hS1 hS2
  have hiff := lt_iff_toRat ((((1 : Double) - 0.05) * e.avg_spread + 0.05 * sp) * 2) sp hDf hsf
  have hu51 : (2 : ℚ) ^ (-51 : ℤ) = 1 / 2251799813685248 := by norm_num
  have hu50 : (2 : ℚ) ^ (-50 : ℤ) = 1 / 1125899906842624 := by norm_num
  rw [hu51] at hDu hDl
  rw [hu50]
  have hApos : 0 < e.avg_spread.toRat := lt_of_lt_of_le (by positivity) hA1
  have hcalm : 9 * sp.toRat < 19 * e.avg_spread.toRat * (1 - 1 / 1125899906842624) →
      ((if sp > (((1 : Double) - 0.05) * e.avg_spread + 0.05 * sp) * 2 then (1 : Int) else 0) = 0 ∧
        (if sp > (((1 : Double) - 0.05) * e.avg_spread + 0.05 * sp) * 2 then "Stressed"
          else "Calm") = "Calm") := by
    intro h
    have hn : ¬ sp > (((1 : Double) - 0.05) * e.avg_spread + 0.05 * sp) * 2 := by
      intro hgt
      have := hiff.1 hgt
      linarith
    rw [if_neg hn, if_neg hn]
    exact ⟨rfl, rfl⟩
  refine ⟨?_, hcalm, ?_⟩
  · intro h
    have hgt : sp > (((1 : Double) - 0.05) * e.avg_spread + 0.05 * sp) * 2 := by
      apply hiff.2
      linarith
    rw [if_pos hgt, if_pos hgt]
    exact ⟨rfl, rfl⟩
  · rintro ⟨-, h⟩
    apply hcalm
    linarith

/-- Instance of the amended C18: on the fresh engine (`a = 0.05`) the book with
prices `100.0` and `100.105`, whose spread exceeds `2 * a`, is "Calm". -/
theorem regime_threshold_binary64_witness :
    2 * AnalyticsEngine.AnalyticsEngine.avg_spread.toRat <
      (processSnapshot AnalyticsEngine.AnalyticsEngine borderTick).1.spread.toRat ∧
    (processSnapshot AnalyticsEngine.AnalyticsEngine borderTick).1.regime = 0 ∧
    (processSnapshot AnalyticsEngine.AnalyticsEngine borderTick).1.regime_label = "Calm" := by
  have hsv : (processSnapshot AnalyticsEngine.AnalyticsEngine borderTick).1.spread =
      Double.fin false 7566047373982720 (-56) := by decide!
  have hav : AnalyticsEngine.AnalyticsEngine.avg_spread =
      Double.fin false 7205759403792794 (-57) := by decide!
  have h := (regime_threshold_binary64 AnalyticsEngine.AnalyticsEngine borderTick
    (by decide!) (by decide!) (by decide!) (by decide!)
    (by rw [hav]; simp only [toRat]; norm_num)
    (by rw [hav]; simp only [toRat]; norm_num)
    (by decide!)
    (by rw [hsv]; simp only [toRat]; norm_num)
    (by rw [hsv]; simp only [toRat]; norm_num)).2.1
    (by rw [hsv, hav]; simp only [toRat]; norm_num)
  refine ⟨?_, h⟩
  rw [hsv, hav]
  simp only [toRat]
  norm_num

end Binary64

/-! ## The microprice in binary64 -/

namespace Binary64
open Double (bits bitsAux roundShift round roundDiv toRat isFinite scaled)

theorem tiny_value : (1e-9 : Double) = Double.fin false 4835703278458517 (-82) := by decide!

theorem toRat_tiny : (1e-9 : Double).toRat = 4835703278458517 / 2 ^ 82 := by
  rw [tiny_value]
  simp only [toRat]
  norm_num

theorem zero_value : (0 : Double) = Double.fin false 0 0 := by decide!

theorem toRat_zero_literal : (0 : Double).toRat = 0 := by
  rw [zero_value]
  simp only [toRat]
  norm_num

/-- Rounding analysis of line 84: for finite non-negative operands of size at
most `2^500` whose rounded volume sum exceeds `1e-9`, if the exact weighted sum
lies between `L` and `H` times the exact total volume, the computed microprice
lies between `L * (1 - 2^-50)` and `H * (1 + 2^-50)`. -/
theorem microprice_bounds (bq aq bp ap : Double)
    (hbq : bq.isFinite) (haq : aq.isFinite) (hbp : bp.isFinite) (hap : ap.isFinite)
    (hBq0 : 0 ≤ bq.toRat) (hBq1 : bq.toRat ≤ 2 ^ (500 : ℤ))
    (hAq0 : 0 ≤ aq.toRat) (hAq1 : aq.toRat ≤ 2 ^ (500 : ℤ))
    (hBp0 : 0 ≤ bp.toRat) (hBp1 : bp.toRat ≤ 2 ^ (500 : ℤ))
    (hAp0 : 0 ≤ ap.toRat) (hAp1 : ap.toRat ≤ 2 ^ (500 : ℤ))
    (hW : bq + aq > 1e-9)
    (L H : ℚ) (hL : 2 ^ (-500 : ℤ) ≤ L) (hLH : L ≤ H) (hH : H ≤ 2 ^ (500 : ℤ))
    (hLX : L * (bq.toRat + aq.toRat) ≤ bq.toRat * ap.toRat + aq.toRat * bp.toRat)
    (hXH : bq.toRat * ap.toRat + aq.toRat * bp.toRat ≤ H * (bq.toRat + aq.toRat)) :
    ((bq * ap + aq * bp) / (bq + aq)).isFinite ∧
    L * (1 - 2 ^ (-50 : ℤ)) ≤ ((bq * ap + aq * bp) / (bq + aq)).toRat ∧
    ((bq * ap + aq * bp) / (bq + aq)).toRat ≤ H * (1 + 2 ^ (-50 : ℤ)) := by
  have hu : (2 : ℚ) ^ (-53 : ℤ) = 1 / 9007199254740992 := by norm_num
  have hu50 : (2 : ℚ) ^ (-50 : ℤ) = 1 / 1125899906842624 := by norm_num
  have h31 : (2 : ℚ) ^ (-31 : ℤ) = 1 / 2147483648 := by norm_num
  have h44 : (2 : ℚ) ^ (-44 : ℤ) = 1 / 17592186044416 := by norm_num
  have h1000 : (2 : ℚ) ^ (500 : ℤ) * 2 ^ (500 : ℤ) = 2 ^ (1000 : ℤ) := by
    rw [← zpow_add₀ (two_ne_zero)]; norm_num
  have hbig : (2 : ℚ) ^ (1000 : ℤ) * 4 < 2 ^ (1023 : ℤ) := by norm_num
  have hbig2 : (2 : ℚ) ^ (500 : ℤ) * 4 < 2 ^ (1022 : ℤ) := by norm_num
  have hbig3 : (2 : ℚ) ^ (500 : ℤ) * 4 < 2 ^ (1023 : ℤ) := by norm_num
  have ht1 : (2 : ℚ) ^ (-1075 : ℤ) = 2 ^ (-1044 : ℤ) * 2 ^ (-31 : ℤ) := by
    rw [← zpow_add₀ (two_ne_zero)]; norm_num
  have ht2 : (2 : ℚ) ^ (-1075 : ℤ) = 2 ^ (-544 : ℤ) * (2 ^ (-500 : ℤ) * 2 ^ (-31 : ℤ)) := by
    rw [← zpow_add₀ (two_ne_zero), ← zpow_add₀ (two_ne_zero)]; norm_num
  have ht3 : (2 : ℚ) ^ (-1075 : ℤ) = 2 ^ (-575 : ℤ) * 2 ^ (-500 : ℤ) := by
    rw [← zpow_add₀ (two_ne_zero)]; norm_num
  have hc1044 : (2 : ℚ) ^ (-1044 : ℤ) ≤ 2 ^ (-100 : ℤ) :=
    zpow_le_zpow_right₀ (by norm_num) (by norm_num)
  have hc544 : (2 : ℚ) ^ (-544 : ℤ) ≤ 2 ^ (-100 : ℤ) :=
    zpow_le_zpow_right₀ (by norm_num) (by norm_num)
  have hc575 : (2 : ℚ) ^ (-575 : ℤ) ≤ 2 ^ (-100 : ℤ) :=
    zpow_le_zpow_right₀ (by norm_num) (by norm_num)
  have h100 : (2 : ℚ) ^ (-100 : ℤ) = 1 / 1267650600228229401496703205376 := by norm_num
  have hLpos : 0 < L := lt_of_lt_of_le (by positivity) hL
  have hHpos : 0 < H := lt_of_lt_of_le hLpos hLH
  -- the products
  have hP1n : 0 ≤ bq.toRat * ap.toRat := mul_nonneg hBq0 hAp0
  have hP2n : 0 ≤ aq.toRat * bp.toRat := mul_nonneg hAq0 hBp0
  have hP1b : bq.toRat * ap.toRat ≤ 2 ^ (1000 : ℤ) := by
    rw [← h1000]
    exact mul_le_mul hBq1 hAp1 hAp0 (by positivity)
  have hP2b : aq.toRat * bp.toRat ≤ 2 ^ (1000 : ℤ) := by
    rw [← h1000]
    exact mul_le_mul hAq1 hBp1 hBp0 (by positivity)
  obtain ⟨hf1, hp1⟩ := mul_spec bq ap hbq hap (by rw [abs_of_nonneg hP1n]; linarith)
  obtain ⟨hf2, hp2⟩ := mul_spec aq bp haq hbp (by rw [abs_of_nonneg hP2n]; linarith)
  rw [abs_of_nonneg hP1n, hu, abs_le] at hp1
  rw [abs_of_nonneg hP2n, hu, abs_le] at hp2
  obtain ⟨hp1l, hp1u⟩ := hp1
  obtain ⟨hp2l, hp2u⟩ := hp2
  -- the total volume
  have hWn : 0 ≤ bq.toRat + aq.toRat := add_nonneg hBq0 hAq0
  obtain ⟨hfW, hpW⟩ := add_spec bq aq hbq haq (by rw [abs_of_nonneg hWn]; linarith)
  rw [abs_of_nonneg hWn, hu, abs_le] at hpW
  obtain ⟨hpWl, hpWu⟩ := hpW
  have htf : (1e-9 : Double).isFinite := by
    rw [tiny_value]; exact finite_fin _ _ _
  have hWgt : (1e-9 : Double).toRat < (bq + aq).toRat :=
    (lt_iff_toRat (1e-9 : Double) (bq + aq) htf hfW).1 hW
  rw [toRat_tiny] at hWgt
  have hWgt2 : (2 : ℚ) ^ (-31 : ℤ) ≤ (bq + aq).toRat := by
    rw [h31]
    have : (1 : ℚ) / 2147483648 ≤ 4835703278458517 / 2 ^ 82 := by norm_num
    linarith
  -- the absolute error term against the sizes at hand
  obtain ⟨t, htdef⟩ : ∃ t : ℚ, (2 : ℚ) ^ (-1075 : ℤ) = t := ⟨_, rfl⟩
  rw [htdef] at hp1l hp1u hp2l hp2u hpWl hpWu ht1 ht2 ht3
  have htpos : 0 < t := by rw [← htdef]; positivity
  have hW31 : (2 : ℚ) ^ (-31 : ℤ) ≤ (bq.toRat + aq.toRat) * (1 + 1 / 4503599627370496) := by
    by_contra hcon
    push_neg at hcon
    have h1 : t ≤ 2 ^ (-100 : ℤ) * 2 ^ (-31 : ℤ) := by
      rw [ht1]
      exact mul_le_mul_of_nonneg_right hc1044 (by positivity)
    rw [h100] at h1
    rw [h31] at hcon hWgt2 h1
    linarith
  have htW : t ≤ 2 ^ (-100 : ℤ) * ((bq.toRat + aq.toRat) * (1 + 1 / 4503599627370496)) := by
    rw [ht1]
    exact mul_le_mul hc1044 hW31 (by positivity) (by positivity)
  have htL : t ≤ 2 ^ (-100 : ℤ) * L := by
    rw [ht3]
    exact mul_le_mul hc575 hL (by positivity) (by positivity)
  have htLW : t ≤ 2 ^ (-100 : ℤ) *
      (L * ((bq.toRat + aq.toRat) * (1 + 1 / 4503599627370496))) := by
    rw [ht2]
    exact mul_le_mul hc544 (mul_le_mul hL hW31 (by positivity) hLpos.le) (by positivity)
      (by positivity)
  rw [h100] at htW htL htLW
  clear ht1 ht2 ht3 hc1044 hc544 hc575 h100
  have htH : t ≤ 1 / 1267650600228229401496703205376 * H := by linarith
  generalize (2 : ℚ) ^ (1000 : ℤ) = B at *
  generalize (bq * ap) = P1 at *
  generalize (aq * bp) = P2 at *
  -- the numerator
  have hsn : 0 ≤ P1.toRat + P2.toRat := by linarith
  obtain ⟨hfX, hpX⟩ := add_spec P1 P2 hf1 hf2 (by rw [abs_of_nonneg hsn]; linarith)
  rw [abs_of_nonneg hsn, hu, abs_le] at hpX
  obtain ⟨hpXl, hpXu⟩ := hpX
  rw [htdef] at hpXl hpXu
  generalize (P1 + P2) = Xf at *
  generalize (bq + aq) = Wf at *
  have hWpos : 0 < Wf.toRat := lt_of_lt_of_le (by positivity) hWgt2
  -- relative bounds for numerator and denominator
  have hXfl : (bq.toRat * ap.toRat + aq.toRat * bp.toRat) * (1 - 3 / 9007199254740992) ≤
      Xf.toRat := by linarith
  have hXfu : Xf.toRat ≤
      (bq.toRat * ap.toRat + aq.toRat * bp.toRat) * (1 + 3 / 9007199254740992) := by linarith
  have hWfl : (bq.toRat + aq.toRat) * (1 - 2 / 9007199254740992) ≤ Wf.toRat := by linarith
  have hWfu : Wf.toRat ≤ (bq.toRat + aq.toRat) * (1 + 2 / 9007199254740992) := by linarith
  have hQl : L * (1 - 5 / 9007199254740992) ≤ Xf.toRat / Wf.toRat := by
    rw [le_div_iff₀ hWpos]
    have h1 := mul_le_mul_of_nonneg_left hWfu hLpos.le
    linarith
  have hQu : Xf.toRat / Wf.toRat ≤ H * (1 + 6 / 9007199254740992) := by
    rw [div_le_iff₀ hWpos]
    have h1 := mul_le_mul_of_nonneg_left hWfl hHpos.le
    have h2 : 0 ≤ H * (bq.toRat + aq.toRat) := mul_nonneg hHpos.le hWn
    linarith
  have hQn : 0 ≤ Xf.toRat / Wf.toRat := by linarith
  obtain ⟨hfM, hpM⟩ := div_spec Xf Wf hfX hfW hWpos.ne.symm
    (by rw [abs_of_nonneg hQn]; linarith)
  rw [abs_of_nonneg hQn, hu, htdef, abs_le] at hpM
  obtain ⟨hpMl, hpMu⟩ := hpM
  rw [hu50]
  refine ⟨hfM, ?_, ?_⟩
  · linarith
  · linarith

end Binary64

namespace Binary64
open Double (bits bitsAux roundShift round roundDiv toRat isFinite scaled)

theorem microprice_of_accepted (e : AnalyticsEngine) (snapshot : Snapshot)
    (hv : snapshot.accepted) :
    (processSnapshot e snapshot).1.microprice =
      if (snapshot.bidsAt 0).volume + (snapshot.asksAt 0).volume > 1e-9 then
        ((snapshot.bidsAt 0).volume * (snapshot.asksAt 0).price +
          (snapshot.asksAt 0).volume * (snapshot.bidsAt 0).price) /
          ((snapshot.bidsAt 0).volume + (snapshot.asksAt 0).volume)
      else snapshot.mid_price := by
  rw [processSnapshot_of_accepted e snapshot hv]

theorem divergence_of_accepted (e : AnalyticsEngine) (snapshot : Snapshot)
    (hv : snapshot.accepted) :
    (processSnapshot e snapshot).1.divergence =
      (processSnapshot e snapshot).1.microprice - snapshot.mid_price := by
  rw [processSnapshot_of_accepted e snapshot hv]

theorem sub_self_finite (x : Double) (hx : x.isFinite) : x - x = 0 := by
  cases x with
  | nan => exact absurd hx (by simp [Double.isFinite])
  | inf s => exact absurd hx (by simp [Double.isFinite])
  | fin s m e =>
    rw [zero_value]
    show Double.add (Double.fin s m e) (Double.neg (Double.fin s m e)) = _
    simp only [Double.neg]
    by_cases h0 : m = 0
    · subst h0
      simp [Double.add, Double.zero, scaled, Double.round]
    · rw [if_neg h0]
      cases s <;> simp [Double.add, Double.zero, scaled, Double.round]

theorem volume_nonneg (x : Double) (hx : x.isFinite) (h : ¬ x < 0) : 0 ≤ x.toRat := by
  have h0 : (0 : Double).isFinite := by rw [zero_value]; exact finite_fin _ _ _
  have := (lt_iff_toRat x 0 hx h0).not.1 h
  rw [toRat_zero_literal] at this
  exact not_lt.1 this

/-- C19 as stated fails in binary64: with all the resting size on the bid, bid
`(100.0, 0.7)` and ask `(100.01, 0.0)`, the snapshot is accepted, its ask price
is above its bid price, its total volume exceeds `1e-9`, and the microprice
`100.01000000000002` is greater than the best ask price. -/
theorem microprice_interval_counterexample :
    bidOnlyTick.accepted ∧
    (bidOnlyTick.bidsAt 0).price < (bidOnlyTick.asksAt 0).price ∧
    (bidOnlyTick.bidsAt 0).volume + (bidOnlyTick.asksAt 0).volume > 1e-9 ∧
    (processSnapshot AnalyticsEngine.AnalyticsEngine bidOnlyTick).1.microprice =
      100.01000000000002 ∧
    (processSnapshot AnalyticsEngine.AnalyticsEngine bidOnlyTick).1.microprice >
      (bidOnlyTick.asksAt 0).price ∧
    ¬ ((processSnapshot AnalyticsEngine.AnalyticsEngine bidOnlyTick).1.microprice ≤
      (bidOnlyTick.asksAt 0).price) := by
  decide!

/-- C19 amended: for an accepted snapshot with best ask price above best bid
price and computed total top-of-book volume above `1e-9`, whose two prices, two
volumes and mid price are finite, with prices between `2^-500` and `2^500`,
volumes at most `2^500` and mid price at most `2^500` in size, the returned
microprice is finite and lies in
`[best_bid_px * (1 - 2^-50), best_ask_px * (1 + 2^-50)]`, and
`|divergence| <= (max(|best_ask_px - mid_price|, |best_bid_px - mid_price|)
+ 2^-50 * best_ask_px) * (1 + 2^-52)`. -/
theorem microprice_interval_binary64 (e : AnalyticsEngine) (snapshot : Snapshot)
    (hv : snapshot.accepted)
    (hs : (snapshot.bidsAt 0).price < (snapshot.asksAt 0).price)
    (hvol : (snapshot.bidsAt 0).volume + (snapshot.asksAt 0).volume > 1e-9)
    (hbp : (snapshot.bidsAt 0).price.isFinite) (hap : (snapshot.asksAt 0).price.isFinite)
    (hbq : (snapshot.bidsAt 0).volume.isFinite) (haq : (snapshot.asksAt 0).volume.isFinite)
    (hmid : snapshot.mid_price.isFinite)
    (hBp : 2 ^ (-500 : ℤ) ≤ (snapshot.bidsAt 0).price.toRat)
    (hAp : (snapshot.asksAt 0).price.toRat ≤ 2 ^ (500 : ℤ))
    (hBq : (snapshot.bidsAt 0).volume.toRat ≤ 2 ^ (500 : ℤ))
    (hAq : (snapshot.asksAt 0).volume.toRat ≤ 2 ^ (500 : ℤ))
    (hMid : |snapshot.mid_price.toRat| ≤ 2 ^ (500 : ℤ)) :
    (processSnapshot e snapshot).1.microprice.isFinite ∧
    (snapshot.bidsAt 0).price.toRat * (1 - 2 ^ (-50 : ℤ)) ≤
      (processSnapshot e snapshot).1.microprice.toRat ∧
    (processSnapshot e snapshot).1.microprice.toRat ≤
      (snapshot.asksAt 0).price.toRat * (1 + 2 ^ (-50 : ℤ)) ∧
    |(processSnapshot e snapshot).1.divergence.toRat| ≤
      (max |(snapshot.asksAt 0).price.toRat - snapshot.mid_price.toRat|
          |(snapshot.bidsAt 0).price.toRat - snapshot.mid_price.toRat| +
        2 ^ (-50 : ℤ) * (snapshot.asksAt 0).price.toRat) * (1 + 2 ^ (-52 : ℤ)) := by
  have hlt := (lt_iff_toRat _ _ hbp hap).1 hs
  have hBq0 := volume_nonneg _ hbq (fun h => hv.2 (Or.inr (Or.inr (Or.inl h))))
  have hAq0 := volume_nonneg _ haq (fun h => hv.2 (Or.inr (Or.inr (Or.inr h))))
  have hBpos : 0 < (snapshot.bidsAt 0).price.toRat := lt_of_lt_of_le (by positivity) hBp
  have h1 := mul_nonneg hBq0 (sub_nonneg.2 hlt.le)
  have h2 := mul_nonneg hAq0 (sub_nonneg.2 hlt.le)
  obtain ⟨hfM, hMl, hMu⟩ := microprice_bounds (snapshot.bidsAt 0).volume
    (snapshot.asksAt 0).volume (snapshot.bidsAt 0).price (snapshot.asksAt 0).price
    hbq haq hbp hap hBq0 hBq hAq0 hAq hBpos.le (by linarith) (by linarith) hAp hvol
    (snapshot.bidsAt 0).price.toRat (snapshot.asksAt 0).price.toRat hBp hlt.le hAp
    (by linarith) (by linarith)
  rw [divergence_of_accepted e snapshot hv, microprice_of_accepted e snapshot hv, if_pos hvol]
  generalize ((snapshot.bidsAt 0).volume * (snapshot.asksAt 0).price +
    (snapshot.asksAt 0).volume * (snapshot.bidsAt 0).price) /
    ((snapshot.bidsAt 0).volume + (snapshot.asksAt 0).volume) = mi at *
  refine ⟨hfM, hMl, hMu, ?_⟩
  have hu : (2 : ℚ) ^ (-53 : ℤ) = 1 / 9007199254740992 := by norm_num
  have hu52 : (2 : ℚ) ^ (-52 : ℤ) = 1 / 4503599627370496 := by norm_num
  have hu50 : (2 : ℚ) ^ (-50 : ℤ) = 1 / 1125899906842624 := by norm_num
  have hbig : (2 : ℚ) ^ (500 : ℤ) * 4 < 2 ^ (1023 : ℤ) := by norm_num
  have ht : (2 : ℚ) ^ (-1075 : ℤ) = 2 ^ (-575 : ℤ) * 2 ^ (-500 : ℤ) := by
    rw [← zpow_add₀ (two_ne_zero)]; norm_num
  have hc575 : (2 : ℚ) ^ (-575 : ℤ) ≤ 2 ^ (-110 : ℤ) :=
    zpow_le_zpow_right₀ (by norm_num) (by norm_num)
  have h110 : (2 : ℚ) ^ (-110 : ℤ) = 1 / 1298074214633706907132624082305024 := by norm_num
  have htA : (2 : ℚ) ^ (-1075 : ℤ) ≤ 2 ^ (-110 : ℤ) * (snapshot.asksAt 0).price.toRat := by
    rw [ht]
    exact mul_le_mul hc575 (by linarith) (by positivity) (by positivity)
  rw [h110] at htA
  rw [hu50] at hMl hMu
  rw [hu50, hu52]
  obtain ⟨hMidl, hMidu⟩ := abs_le.1 hMid
  have hA1 := le_abs_self ((snapshot.asksAt 0).price.toRat - snapshot.mid_price.toRat)
  have hB1 := neg_abs_le ((snapshot.bidsAt 0).price.toRat - snapshot.mid_price.toRat)
  have hm1 := le_max_left |(snapshot.asksAt 0).price.toRat - snapshot.mid_price.toRat|
    |(snapshot.bidsAt 0).price.toRat - snapshot.mid_price.toRat|
  have hm2 := le_max_right |(snapshot.asksAt 0).price.toRat - snapshot.mid_price.toRat|
    |(snapshot.bidsAt 0).price.toRat - snapshot.mid_price.toRat|
  generalize max |(snapshot.asksAt 0).price.toRat - snapshot.mid_price.toRat|
    |(snapshot.bidsAt 0).price.toRat - snapshot.mid_price.toRat| = M at *
  generalize |(snapshot.asksAt 0).price.toRat - snapshot.mid_price.toRat| = DA at *
  generalize |(snapshot.bidsAt 0).price.toRat - snapshot.mid_price.toRat| = DB at *
  have hdu : mi.toRat - snapshot.mid_price.toRat ≤
      M + 1 / 1125899906842624 * (snapshot.asksAt 0).price.toRat := by linarith
  have hdl : -(M + 1 / 1125899906842624 * (snapshot.asksAt 0).price.toRat) ≤
      mi.toRat - snapshot.mid_price.toRat := by linarith
  have hdabs : |mi.toRat - snapshot.mid_price.toRat| ≤
      M + 1 / 1125899906842624 * (snapshot.asksAt 0).price.toRat := abs_le.2 ⟨hdl, hdu⟩
  obtain ⟨-, hpD⟩ := sub_spec mi snapshot.mid_price hfM hmid
    (by rw [abs_lt]; constructor <;> linarith)
  rw [hu] at hpD
  obtain ⟨hpDl, hpDu⟩ := abs_le.1 hpD
  have hMn : 0 ≤ M + 1 / 1125899906842624 * (snapshot.asksAt 0).price.toRat :=
    le_trans (abs_nonneg _) hdabs
  generalize (2 : ℚ) ^ (-1075 : ℤ) = t at *
  generalize |mi.toRat - snapshot.mid_price.toRat| = AD at *
  rw [abs_le]
  constructor <;> linarith

end Binary64

namespace Binary64
open Double (bits bitsAux roundShift round roundDiv toRat isFinite scaled)

/-- Instance of the amended C19 on the fresh engine: for the book with bid
`(100.0, 10)`, ask `(100.10, 10)` and mid price `100.05` the microprice lies
within the widened interval, and the bound on the divergence holds. -/
theorem microprice_interval_binary64_witness :
    (processSnapshot AnalyticsEngine.AnalyticsEngine specExample).1.microprice.isFinite ∧
    (specExample.bidsAt 0).price.toRat * (1 - 2 ^ (-50 : ℤ)) ≤
      (processSnapshot AnalyticsEngine.AnalyticsEngine specExample).1.microprice.toRat ∧
    (processSnapshot AnalyticsEngine.AnalyticsEngine specExample).1.microprice.toRat ≤
      (specExample.asksAt 0).price.toRat * (1 + 2 ^ (-50 : ℤ)) ∧
    |(processSnapshot AnalyticsEngine.AnalyticsEngine specExample).1.divergence.toRat| ≤
      (max |(specExample.asksAt 0).price.toRat - specExample.mid_price.toRat|
          |(specExample.bidsAt 0).price.toRat - specExample.mid_price.toRat| +
        2 ^ (-50 : ℤ) * (specExample.asksAt 0).price.toRat) * (1 + 2 ^ (-52 : ℤ)) := by
  have hb : (specExample.bidsAt 0).price = Double.fin false 7036874417766400 (-46) := by
    decide!
  have ha : (specExample.asksAt 0).price = Double.fin false 7043911292184166 (-46) := by
    decide!
  have hq : (specExample.bidsAt 0).volume = Double.fin false 5629499534213120 (-49) := by
    decide!
  have hr : (specExample.asksAt 0).volume = Double.fin false 5629499534213120 (-49) := by
    decide!
  have hm : specExample.mid_price = Double.fin false 7040392854975283 (-46) := by
    decide!
  exact microprice_interval_binary64 AnalyticsEngine.AnalyticsEngine specExample
    (by decide!) (by decide!) (by decide!) (by decide!) (by decide!) (by decide!) (by decide!)
    (by decide!)
    (by rw [hb]; simp only [toRat]; norm_num)
    (by rw [ha]; simp only [toRat]; norm_num)
    (by rw [hq]; simp only [toRat]; norm_num)
    (by rw [hr]; simp only [toRat]; norm_num)
    (by rw [hm]; simp only [toRat]; norm_num [abs_of_pos])

/-- C16 as stated fails in binary64. With equal volumes `0.1` at prices `100.0`
and `100.1` the microprice is `100.04999999999998`, below the midpoint of the
two prices, whether that is computed in binary64 or exactly. With bid volume
`100.00000000000001` above ask volume `100.0` at prices `100.0` and `101.0`
the microprice is `100.5`, the midpoint, not strictly above it. -/
theorem microprice_weighting_counterexample :
    (evenTick.accepted ∧
      (evenTick.bidsAt 0).volume + (evenTick.asksAt 0).volume > 1e-9 ∧
      (evenTick.bidsAt 0).price < (evenTick.asksAt 0).price ∧
      (evenTick.bidsAt 0).volume = (evenTick.asksAt 0).volume ∧
      (processSnapshot AnalyticsEngine.AnalyticsEngine evenTick).1.microprice =
        100.04999999999998 ∧
      (processSnapshot AnalyticsEngine.AnalyticsEngine evenTick).1.microprice ≠
        ((evenTick.bidsAt 0).price + (evenTick.asksAt 0).price) / 2 ∧
      (processSnapshot AnalyticsEngine.AnalyticsEngine evenTick).1.microprice.toRat ≠
        ((evenTick.bidsAt 0).price.toRat + (evenTick.asksAt 0).price.toRat) / 2) ∧
    (barelyBidHeavyTick.accepted ∧
      (barelyBidHeavyTick.bidsAt 0).volume + (barelyBidHeavyTick.asksAt 0).volume > 1e-9 ∧
      (barelyBidHeavyTick.bidsAt 0).price < (barelyBidHeavyTick.asksAt 0).price ∧
      (barelyBidHeavyTick.bidsAt 0).volume > (barelyBidHeavyTick.asksAt 0).volume ∧
      (processSnapshot AnalyticsEngine.AnalyticsEngine barelyBidHeavyTick).1.microprice =
        100.5 ∧
      (processSnapshot AnalyticsEngine.AnalyticsEngine barelyBidHeavyTick).1.microprice =
        ((barelyBidHeavyTick.bidsAt 0).price + (barelyBidHeavyTick.asksAt 0).price) / 2 ∧
      (processSnapshot AnalyticsEngine.AnalyticsEngine barelyBidHeavyTick).1.microprice.toRat =
        ((barelyBidHeavyTick.bidsAt 0).price.toRat +
          (barelyBidHeavyTick.asksAt 0).price.toRat) / 2) := by
  have h1 : (processSnapshot AnalyticsEngine.AnalyticsEngine evenTick).1.microprice =
      Double.fin false 7040392854975282 (-46) := by decide!
  have h2 : (evenTick.bidsAt 0).price = Double.fin false 7036874417766400 (-46) := by decide!
  have h3 : (evenTick.asksAt 0).price = Double.fin false 7043911292184166 (-46) := by decide!
  have h4 : (processSnapshot AnalyticsEngine.AnalyticsEngine barelyBidHeavyTick).1.microprice =
      Double.fin false 7072058789855232 (-46) := by decide!
  have h5 : (barelyBidHeavyTick.bidsAt 0).price = Double.fin false 7036874417766400 (-46) := by
    decide!
  have h6 : (barelyBidHeavyTick.asksAt 0).price = Double.fin false 7107243161944064 (-46) := by
    decide!
  refine ⟨⟨by decide!, by decide!, by decide!, by decide!, by decide!, by decide!, ?_⟩,
    ⟨by decide!, by decide!, by decide!, by decide!, by decide!, by decide!, ?_⟩⟩
  · rw [h1, h2, h3]
    simp only [toRat]
    norm_num
  · rw [h4, h5, h6]
    simp only [toRat]
    norm_num

/-- C16 amended: for every accepted snapshot, (1) if the computed total
top-of-book volume exceeds `1e-9`, the returned microprice is
`(best_bid_q * best_ask_px + best_ask_q * best_bid_px) / (best_bid_q + best_ask_q)`
with every operation rounded to binary64; (2) otherwise the microprice is the
snapshot's mid price and the divergence is `mid_price - mid_price`, which is 0
when the mid price is finite; (3) when moreover the prices and volumes are
finite, the prices between `2^-500` and `2^500`, the volumes at most `2^500`
and best ask price above best bid price, the microprice is at least
`midpoint * (1 - 2^-50)` if `best_bid_q >= best_ask_q` and at most
`midpoint * (1 + 2^-50)` if `best_bid_q <= best_ask_q` (so within that relative
distance of the midpoint for equal volumes), midpoint being the exact
`(best_bid_px + best_ask_px) / 2`. -/
theorem microprice_weighting_binary64 (e : AnalyticsEngine) (snapshot : Snapshot)
    (hv : snapshot.accepted) :
    ((snapshot.bidsAt 0).volume + (snapshot.asksAt 0).volume > 1e-9 →
      (processSnapshot e snapshot).1.microprice =
        ((snapshot.bidsAt 0).volume * (snapshot.asksAt 0).price +
          (snapshot.asksAt 0).volume * (snapshot.bidsAt 0).price) /
          ((snapshot.bidsAt 0).volume + (snapshot.asksAt 0).volume)) ∧
    (¬ (snapshot.bidsAt 0).volume + (snapshot.asksAt 0).volume > 1e-9 →
      (processSnapshot e snapshot).1.microprice = snapshot.mid_price ∧
      (processSnapshot e snapshot).1.divergence = snapshot.mid_price - snapshot.mid_price ∧
      (snapshot.mid_price.isFinite → (processSnapshot e snapshot).1.divergence = 0)) ∧
    ((snapshot.bidsAt 0).volume + (snapshot.asksAt 0).volume > 1e-9 →
      (snapshot.bidsAt 0).price.isFinite → (snapshot.asksAt 0).price.isFinite →
      (snapshot.bidsAt 0).volume.isFinite → (snapshot.asksAt 0).volume.isFinite →
      2 ^ (-500 : ℤ) ≤ (snapshot.bidsAt 0).price.toRat →
      (snapshot.asksAt 0).price.toRat ≤ 2 ^ (500 : ℤ) →
      (snapshot.bidsAt 0).volume.toRat ≤ 2 ^ (500 : ℤ) →
      (snapshot.asksAt 0).volume.toRat ≤ 2 ^ (500 : ℤ) →
      (snapshot.bidsAt 0).price < (snapshot.asksAt 0).price →
      ((snapshot.asksAt 0).volume.toRat ≤ (snapshot.bidsAt 0).volume.toRat →
        ((snapshot.bidsAt 0).price.toRat + (snapshot.asksAt 0).price.toRat) / 2 *
            (1 - 2 ^ (-50 : ℤ)) ≤
          (processSnapshot e snapshot).1.microprice.toRat) ∧
      ((snapshot.bidsAt 0).volume.toRat ≤ (snapshot.asksAt 0).volume.toRat →
        (processSnapshot e snapshot).1.microprice.toRat ≤
          ((snapshot.bidsAt 0).price.toRat + (snapshot.asksAt 0).price.toRat) / 2 *
            (1 + 2 ^ (-50 : ℤ)))) := by
  refine ⟨?_, ?_, ?_⟩
  · intro hvol
    rw [microprice_of_accepted e snapshot hv, if_pos hvol]
  · intro hvol
    have hm : (processSnapshot e snapshot).1.microprice = snapshot.mid_price := by
      rw [microprice_of_accepted e snapshot hv, if_neg hvol]
    refine ⟨hm, ?_, ?_⟩
    · rw [divergence_of_accepted e snapshot hv, hm]
    · intro hfin
      rw [divergence_of_accepted e snapshot hv, hm]
      exact sub_self_finite _ hfin
  · intro hvol hbp hap hbq haq hBp hAp hBq hAq hs
    have hlt := (lt_iff_toRat _ _ hbp hap).1 hs
    have hBq0 := volume_nonneg _ hbq (fun h => hv.2 (Or.inr (Or.inr (Or.inl h))))
    have hAq0 := volume_nonneg _ haq (fun h => hv.2 (Or.inr (Or.inr (Or.inr h))))
    have hBpos : 0 < (snapshot.bidsAt 0).price.toRat := lt_of_lt_of_le (by positivity) hBp
    have h1 := mul_nonneg hBq0 (sub_nonneg.2 hlt.le)
    have h2 := mul_nonneg hAq0 (sub_nonneg.2 hlt.le)
    rw [microprice_of_accepted e snapshot hv, if_pos hvol]
    constructor
    · intro hq
      have h3 := mul_nonneg (sub_nonneg.2 hq) (sub_nonneg.2 hlt.le)
      exact (microprice_bounds (snapshot.bidsAt 0).volume
        (snapshot.asksAt 0).volume (snapshot.bidsAt 0).price (snapshot.asksAt 0).price
        hbq haq hbp hap hBq0 hBq hAq0 hAq hBpos.le (by linarith) (by linarith) hAp hvol
        (((snapshot.bidsAt 0).price.toRat + (snapshot.asksAt 0).price.toRat) / 2)
        (snapshot.asksAt 0).price.toRat (le_trans hBp (by linarith)) (by linarith) hAp
        (by linarith) (by linarith)).2.1
    · intro hq
      have h3 := mul_nonneg (sub_nonneg.2 hq) (sub_nonneg.2 hlt.le)
      exact (microprice_bounds (snapshot.bidsAt 0).volume
        (snapshot.asksAt 0).volume (snapshot.bidsAt 0).price (snapshot.asksAt 0).price
        hbq haq hbp hap hBq0 hBq hAq0 hAq hBpos.le (by linarith) (by linarith) hAp hvol
        (snapshot.bidsAt 0).price.toRat
        (((snapshot.bidsAt 0).price.toRat + (snapshot.asksAt 0).price.toRat) / 2)
        hBp (by linarith) (le_trans (by linarith) hAp)
        (by linarith) (by linarith)).2.2

/-- Instance of the amended C16: the book with bid `(100.0, 30.0)` and ask
`(100.1, 10.0)` has its microprice `100.075` at or above the
midpoint less the rounding allowance, and the book with no resting size at the
top has the mid price as microprice and divergence 0. -/
theorem microprice_weighting_binary64_witness :
    ((processSnapshot AnalyticsEngine.AnalyticsEngine bidHeavyBook).1.microprice =
        100.075 ∧
      ((bidHeavyBook.bidsAt 0).price.toRat + (bidHeavyBook.asksAt 0).price.toRat) / 2 *
          (1 - 2 ^ (-50 : ℤ)) ≤
        (processSnapshot AnalyticsEngine.AnalyticsEngine bidHeavyBook).1.microprice.toRat) ∧
    ((processSnapshot AnalyticsEngine.AnalyticsEngine emptyTopBook).1.microprice =
        emptyTopBook.mid_price ∧
      (processSnapshot AnalyticsEngine.AnalyticsEngine emptyTopBook).1.divergence = 0) := by
  have hb : (bidHeavyBook.bidsAt 0).price = Double.fin false 7036874417766400 (-46) := by
    decide!
  have ha : (bidHeavyBook.asksAt 0).price = Double.fin false 7043911292184166 (-46) := by
    decide!
  have hq : (bidHeavyBook.bidsAt 0).volume = Double.fin false 8444249301319680 (-48) := by
    decide!
  have hr : (bidHeavyBook.asksAt 0).volume = Double.fin false 5629499534213120 (-49) := by
    decide!
  have h := microprice_weighting_binary64 AnalyticsEngine.AnalyticsEngine bidHeavyBook
    (by decide!)
  have h0 := microprice_weighting_binary64 AnalyticsEngine.AnalyticsEngine emptyTopBook
    (by decide!)
  refine ⟨⟨by decide!, ?_⟩, ?_⟩
  · exact (h.2.2 (by decide!) (by decide!) (by decide!) (by decide!) (by decide!)
      (by rw [hb]; simp only [toRat]; norm_num)
      (by rw [ha]; simp only [toRat]; norm_num)
      (by rw [hq]; simp only [toRat]; norm_num)
      (by rw [hr]; simp only [toRat]; norm_num)
      (by decide!)).1 (by rw [hq, hr]; simp only [toRat]; norm_num)
  · obtain ⟨hm, -, hd⟩ := h0.2.1 (by decide!)
    exact ⟨hm, hd (by decide!)⟩

end Binary64

/-! ## The running spread average in binary64 -/

namespace Binary64
open Double (bits bitsAux roundShift round roundDiv toRat isFinite scaled)

/-- The updated average `(1 - 0.05) * a + 0.05 * sp` of lines 58-59 against
its value in exact arithmetic. -/
theorem average_bounds (a sp : Double) (ha : a.isFinite) (hsp : sp.isFinite)
    (hA1 : 2 ^ (-1000 : ℤ) ≤ a.toRat) (hA2 : a.toRat ≤ 2 ^ (1000 : ℤ))
    (hS1 : 0 < sp.toRat) (hS2 : sp.toRat ≤ 2 ^ (1000 : ℤ)) :
    (((1 : Double) - 0.05) * a + 0.05 * sp).isFinite ∧
    (((1 : Double) - 0.05) * a + 0.05 * sp).toRat ≤
      (19 / 20 * a.toRat + 1 / 20 * sp.toRat) * (1 + 2 ^ (-51 : ℤ)) ∧
    (19 / 20 * a.toRat + 1 / 20 * sp.toRat) * (1 - 2 ^ (-51 : ℤ)) ≤
      (((1 : Double) - 0.05) * a + 0.05 * sp).toRat := by
  have hc : ((1 : Double) - 0.05).isFinite := by
    rw [one_sub_alpha_value]; exact finite_fin _ _ _
  have hal : (0.05 : Double).isFinite := by
    rw [alpha_value]; exact finite_fin _ _ _
  have hbig : (2 : ℚ) ^ (1000 : ℤ) * 4 < 2 ^ (1023 : ℤ) := by norm_num
  have ht : (2 : ℚ) ^ (-1075 : ℤ) = 2 ^ (-75 : ℤ) * 2 ^ (-1000 : ℤ) := by
    rw [← zpow_add₀ (two_ne_zero)]; norm_num
  have htA : (2 : ℚ) ^ (-1075 : ℤ) ≤ 2 ^ (-75 : ℤ) * a.toRat := by
    rw [ht]
    exact mul_le_mul_of_nonneg_left hA1 (by positivity)
  have hu : (2 : ℚ) ^ (-53 : ℤ) = 1 / 9007199254740992 := by norm_num
  have hu51 : (2 : ℚ) ^ (-51 : ℤ) = 1 / 2251799813685248 := by norm_num
  have hu75 : (2 : ℚ) ^ (-75 : ℤ) = 1 / 37778931862957161709568 := by norm_num
  have hApos : 0 < a.toRat := lt_of_lt_of_le (by positivity) hA1
  obtain ⟨t, htdef⟩ : ∃ t : ℚ, (2 : ℚ) ^ (-1075 : ℤ) = t := ⟨_, rfl⟩
  rw [htdef] at htA
  clear ht
  generalize (2 : ℚ) ^ (1000 : ℤ) = B at *
  rw [hu75] at htA
  have hCA : |((1 : Double) - 0.05).toRat * a.toRat| =
      8556839292003942 / 2 ^ 53 * a.toRat := by
    rw [toRat_one_sub_alpha, abs_mul, abs_of_pos hApos, abs_of_pos (by norm_num)]
  have hαS : |(0.05 : Double).toRat * sp.toRat| = 7205759403792794 / 2 ^ 57 * sp.toRat := by
    rw [toRat_alpha, abs_mul, abs_of_pos hS1, abs_of_pos (by norm_num)]
  obtain ⟨hf1, hp1⟩ := mul_spec ((1 : Double) - 0.05) a hc ha (by rw [hCA]; linarith)
  obtain ⟨hf2, hp2⟩ := mul_spec (0.05 : Double) sp hal hsp (by rw [hαS]; linarith)
  rw [hCA, toRat_one_sub_alpha, hu, htdef, abs_le] at hp1
  rw [hαS, toRat_alpha, hu, htdef, abs_le] at hp2
  obtain ⟨hp1l, hp1u⟩ := hp1
  obtain ⟨hp2l, hp2u⟩ := hp2
  generalize (((1 : Double) - 0.05) * a) = P1 at *
  generalize ((0.05 : Double) * sp) = P2 at *
  have hsumpos : 0 < P1.toRat + P2.toRat := by linarith
  obtain ⟨hf3, hp3⟩ := add_spec P1 P2 hf1 hf2 (by rw [abs_of_pos hsumpos]; linarith)
  rw [abs_of_pos hsumpos, hu, htdef, abs_le] at hp3
  obtain ⟨hp3l, hp3u⟩ := hp3
  refine ⟨hf3, ?_, ?_⟩
  · rw [hu51]
    linarith
  · rw [hu51]
    linarith

theorem avg_spread_of_uncrossed_binary64 (e : AnalyticsEngine) (snapshot : Snapshot)
    (hv : snapshot.accepted) (hs : ¬ (snapshot.asksAt 0).price ≤ (snapshot.bidsAt 0).price) :
    (processSnapshot e snapshot).2.avg_spread =
      (1 - e.alpha) * e.avg_spread +
        e.alpha * ((snapshot.asksAt 0).price - (snapshot.bidsAt 0).price) ∧
    (processSnapshot e snapshot).2.alpha = e.alpha := by
  rw [processSnapshot_of_accepted e snapshot hv]
  exact ⟨if_neg hs, rfl⟩

theorem feed_replicate_succ_binary64 (e : AnalyticsEngine) (snapshot : Snapshot) (n : Nat) :
    feed e (List.replicate (n + 1) snapshot) =
      (processSnapshot (feed e (List.replicate n snapshot)) snapshot).2 := by
  unfold feed
  rw [List.replicate_succ', List.foldl_append]
  rfl

/-- Repeated calls on one accepted uncrossed snapshot, for an engine with
`alpha = 0.05`: the average stays finite, stays between the smaller and the
larger of its start value and the spread up to a relative `21 * 2^-51`, and its
distance from the spread shrinks by `19/20` per call down to a floor of
`2^-45` times the larger. -/
theorem avg_spread_feed_replicate_binary64 (e : AnalyticsEngine) (snapshot : Snapshot)
    (hv : snapshot.accepted) (hs : ¬ (snapshot.asksAt 0).price ≤ (snapshot.bidsAt 0).price)
    (hα : e.alpha = 0.05) (ha : e.avg_spread.isFinite)
    (hsp : ((snapshot.asksAt 0).price - (snapshot.bidsAt 0).price).isFinite)
    (m M : ℚ) (hm : 2 ^ (-900 : ℤ) ≤ m) (hM : M ≤ 2 ^ (900 : ℤ))
    (hmA : m ≤ e.avg_spread.toRat) (hAM : e.avg_spread.toRat ≤ M)
    (hmS : m ≤ ((snapshot.asksAt 0).price - (snapshot.bidsAt 0).price).toRat)
    (hSM : ((snapshot.asksAt 0).price - (snapshot.bidsAt 0).price).toRat ≤ M) (n : Nat) :
    (feed e (List.replicate n snapshot)).alpha = 0.05 ∧
    (feed e (List.replicate n snapshot)).avg_spread.isFinite ∧
    m * (1 - 21 * 2 ^ (-51 : ℤ)) ≤ (feed e (List.replicate n snapshot)).avg_spread.toRat ∧
    (feed e (List.replicate n snapshot)).avg_spread.toRat ≤ M * (1 + 21 * 2 ^ (-51 : ℤ)) ∧
    |(feed e (List.replicate n snapshot)).avg_spread.toRat -
        ((snapshot.asksAt 0).price - (snapshot.bidsAt 0).price).toRat| ≤
      (19 / 20) ^ n * |e.avg_spread.toRat -
        ((snapshot.asksAt 0).price - (snapshot.bidsAt 0).price).toRat| +
      2 ^ (-45 : ℤ) * M := by
  have hu51 : (2 : ℚ) ^ (-51 : ℤ) = 1 / 2251799813685248 := by norm_num
  have hu45 : (2 : ℚ) ^ (-45 : ℤ) = 1 / 35184372088832 := by norm_num
  have hmpos : 0 < m := lt_of_lt_of_le (by positivity) hm
  have hlow : (2 : ℚ) ^ (-1000 : ℤ) ≤ 2 ^ (-900 : ℤ) * (1 / 2) := by
    rw [show (2 : ℚ) ^ (-1000 : ℤ) = 2 ^ (-900 : ℤ) * 2 ^ (-100 : ℤ) by
      rw [← zpow_add₀ (two_ne_zero)]; norm_num]
    exact mul_le_mul_of_nonneg_left (by norm_num) (by positivity)
  have hhigh : (2 : ℚ) ^ (900 : ℤ) * 2 ≤ 2 ^ (1000 : ℤ) := by
    rw [show (2 : ℚ) ^ (1000 : ℤ) = 2 ^ (900 : ℤ) * 2 ^ (100 : ℤ) by
      rw [← zpow_add₀ (two_ne_zero)]; norm_num]
    exact mul_le_mul_of_nonneg_left (by norm_num) (by positivity)
  rw [hu51, hu45]
  have hstep := fun e1 => avg_spread_of_uncrossed_binary64 e1 snapshot hv hs
  clear hs hv
  generalize ((snapshot.asksAt 0).price - (snapshot.bidsAt 0).price) = sp at *
  have hMpos : 0 < M := by linarith
  induction n with
  | zero =>
    have h0 : feed e (List.replicate 0 snapshot) = e := rfl
    rw [h0, pow_zero, one_mul]
    exact ⟨hα, ha, by linarith, by linarith, by linarith⟩
  | succ n ih =>
    obtain ⟨ihα, ihf, ihl, ihu, ihe⟩ := ih
    rw [feed_replicate_succ_binary64]
    generalize feed e (List.replicate n snapshot) = en at *
    obtain ⟨hav, hal⟩ := hstep en
    rw [hav, hal, ihα]
    have hSpos : 0 < sp.toRat := by linarith
    obtain ⟨hf, hub, hlb⟩ := average_bounds en.avg_spread sp ihf hsp
      (le_trans hlow (le_trans (mul_le_mul_of_nonneg_right hm (by norm_num)) (by linarith)))
      (by linarith) hSpos (by linarith)
    rw [hu51] at hub hlb
    generalize (((1 : Double) - 0.05) * en.avg_spread + 0.05 * sp) = a1 at *
    obtain ⟨ihel, iheu⟩ := abs_le.1 ihe
    have hpow : ((19 : ℚ) / 20) ^ (n + 1) * |e.avg_spread.toRat - sp.toRat| =
        19 / 20 * ((19 / 20) ^ n * |e.avg_spread.toRat - sp.toRat|) := by
      rw [pow_succ]; ring
    rw [hpow]
    generalize ((19 : ℚ) / 20) ^ n * |e.avg_spread.toRat - sp.toRat| = Pn at *
    refine ⟨rfl, hf, by linarith, by linarith, ?_⟩
    rw [abs_le]
    constructor <;> linarith

/-- C11 as stated fails in binary64: from the fresh engine, 200 calls on the
book with prices `100.0` and `100.05` leave `avg_spread` at
`0.04999999999999715`, which is not `0.05`, is more than `10^-15` away from
`1/20`, and is not the computed spread `0.04999999999999716` either; and after
one call `avg_spread` is not `s + (19/20) * (a0 - s)`, `s` the computed spread
and `a0` the start value. -/
theorem avg_spread_fixed_point_counterexample :
    narrowTick.accepted ∧
    (narrowTick.bidsAt 0).price < (narrowTick.asksAt 0).price ∧
    (feed AnalyticsEngine.AnalyticsEngine (List.replicate 200 narrowTick)).avg_spread =
      0.04999999999999715 ∧
    (feed AnalyticsEngine.AnalyticsEngine (List.replicate 200 narrowTick)).avg_spread ≠ 0.05 ∧
    (1 : ℚ) / 10 ^ 15 < |(feed AnalyticsEngine.AnalyticsEngine
      (List.replicate 200 narrowTick)).avg_spread.toRat - 1 / 20| ∧
    (processSnapshot AnalyticsEngine.AnalyticsEngine narrowTick).1.spread =
      0.04999999999999716 ∧
    (feed AnalyticsEngine.AnalyticsEngine (List.replicate 200 narrowTick)).avg_spread ≠
      (processSnapshot AnalyticsEngine.AnalyticsEngine narrowTick).1.spread ∧
    (feed AnalyticsEngine.AnalyticsEngine (List.replicate 1 narrowTick)).avg_spread.toRat ≠
      (processSnapshot AnalyticsEngine.AnalyticsEngine narrowTick).1.spread.toRat +
        (19 / 20) ^ 1 * (AnalyticsEngine.AnalyticsEngine.avg_spread.toRat -
          (processSnapshot AnalyticsEngine.AnalyticsEngine narrowTick).1.spread.toRat) := by
  have h200 : (feed AnalyticsEngine.AnalyticsEngine (List.replicate 200 narrowTick)).avg_spread =
      Double.fin false 7205759403792383 (-57) := by decide!
  have h1 : (feed AnalyticsEngine.AnalyticsEngine (List.replicate 1 narrowTick)).avg_spread =
      Double.fin false 7205759403792773 (-57) := by decide!
  have hs : (processSnapshot AnalyticsEngine.AnalyticsEngine narrowTick).1.spread =
      Double.fin false 7205759403792384 (-57) := by decide!
  have ha : AnalyticsEngine.AnalyticsEngine.avg_spread =
      Double.fin false 7205759403792794 (-57) := by decide!
  refine ⟨by decide!, by decide!, ?_, ?_, ?_, by decide!, ?_, ?_⟩
  · rw [h200]; decide!
  · rw [h200]; decide!
  · rw [h200]
    simp only [toRat]
    norm_num [abs_of_neg]
  · rw [h200, hs]; decide
  · rw [h1, hs, ha]
    simp only [toRat]
    norm_num

/-- C11 amended: for an accepted snapshot with best ask price not `<=` best bid
price and an engine with `alpha = 0.05`, whose `avg_spread` `a0` and whose
computed spread `s` (the returned spread) are finite and between `2^-900` and
`2^900`: one call sets `avg_spread` to `(1 - 0.05) * a0 + 0.05 * s` with every
operation rounded to binary64, and after `n` calls on that same snapshot
`avg_spread` is finite with
`|avg_spread - s| <= (19/20)^n * |a0 - s| + 2^-45 * max(a0, s)`: the distance
shrinks by the factor 19/20 per call down to a rounding floor, so after 200
calls from any such start it is at most `(19/20)^200 * |a0 - s|` plus that
floor. -/
theorem avg_spread_fixed_point_binary64 (e : AnalyticsEngine) (snapshot : Snapshot) (n : Nat)
    (hv : snapshot.accepted) (hs : ¬ (snapshot.asksAt 0).price ≤ (snapshot.bidsAt 0).price)
    (hα : e.alpha = 0.05) (ha : e.avg_spread.isFinite)
    (hsf : (processSnapshot e snapshot).1.spread.isFinite)
    (hA1 : 2 ^ (-900 : ℤ) ≤ e.avg_spread.toRat) (hA2 : e.avg_spread.toRat ≤ 2 ^ (900 : ℤ))
    (hS1 : 2 ^ (-900 : ℤ) ≤ (processSnapshot e snapshot).1.spread.toRat)
    (hS2 : (processSnapshot e snapshot).1.spread.toRat ≤ 2 ^ (900 : ℤ)) :
    (processSnapshot e snapshot).2.avg_spread =
      (1 - 0.05) * e.avg_spread + 0.05 * (processSnapshot e snapshot).1.spread ∧
    (feed e (List.replicate n snapshot)).avg_spread.isFinite ∧
    |(feed e (List.replicate n snapshot)).avg_spread.toRat -
        (processSnapshot e snapshot).1.spread.toRat| ≤
      (19 / 20) ^ n * |e.avg_spread.toRat - (processSnapshot e snapshot).1.spread.toRat| +
        2 ^ (-45 : ℤ) * max e.avg_spread.toRat (processSnapshot e snapshot).1.spread.toRat := by
  have hone := (avg_spread_of_uncrossed_binary64 e snapshot hv hs).1
  rw [hα] at hone
  rw [hone]
  rw [spread_of_uncrossed e snapshot hv hs] at hsf hS1 hS2 ⊢
  obtain ⟨-, hf, -, -, hb⟩ := avg_spread_feed_replicate_binary64 e snapshot hv hs hα ha hsf
    (min e.avg_spread.toRat ((snapshot.asksAt 0).price - (snapshot.bidsAt 0).price).toRat)
    (max e.avg_spread.toRat ((snapshot.asksAt 0).price - (snapshot.bidsAt 0).price).toRat)
    (le_min hA1 hS1) (max_le hA2 hS2) (min_le_left _ _) (le_max_left _ _)
    (min_le_right _ _) (le_max_right _ _) n
  exact ⟨rfl, hf, hb⟩

/-- Instance of the amended C11: the fresh engine and 200 calls on the book
with prices `100.0` and `100.05`. -/
theorem avg_spread_fixed_point_binary64_witness :
    (feed AnalyticsEngine.AnalyticsEngine (List.replicate 200 narrowTick)).avg_spread.isFinite ∧
    |(feed AnalyticsEngine.AnalyticsEngine (List.replicate 200 narrowTick)).avg_spread.toRat -
        (processSnapshot AnalyticsEngine.AnalyticsEngine narrowTick).1.spread.toRat| ≤
      (19 / 20) ^ 200 * |AnalyticsEngine.AnalyticsEngine.avg_spread.toRat -
          (processSnapshot AnalyticsEngine.AnalyticsEngine narrowTick).1.spread.toRat| +
        2 ^ (-45 : ℤ) * max AnalyticsEngine.AnalyticsEngine.avg_spread.toRat
          (processSnapshot AnalyticsEngine.AnalyticsEngine narrowTick).1.spread.toRat := by
  have hsv : (processSnapshot AnalyticsEngine.AnalyticsEngine narrowTick).1.spread =
      Double.fin false 7205759403792384 (-57) := by decide!
  have hav : AnalyticsEngine.AnalyticsEngine.avg_spread =
      Double.fin false 7205759403792794 (-57) := by decide!
  exact (avg_spread_fixed_point_binary64 AnalyticsEngine.AnalyticsEngine narrowTick 200
    (by decide!) (by decide!) (by decide!) (by decide!) (by decide!)
    (by rw [hav]; simp only [toRat]; norm_num)
    (by rw [hav]; simp only [toRat]; norm_num)
    (by rw [hsv]; simp only [toRat]; norm_num)
    (by rw [hsv]; simp only [toRat]; norm_num)).2

end Binary64
